import Mathlib

/-!
SimpleDs18b20: a shallow embedding of the 1-Wire temperature driver.

The driver talks to one DS18B20 over a single GPIO line.  The embedding keeps
the hardware visible as explicit state: the line is a stream of sampled levels
(one per `digitalRead`), every hardware call is appended to a chronological
trace, and the interrupt mask is a flag.  Machine integers are natural numbers
with explicit reduction modulo `2^8` / `2^16`; the `float` result is a rational
(every value the decoder can produce is a multiple of `1/16` below `2^16`, which
a binary float represents exactly).
-/

namespace SimpleDs18b20

/-! ## Hardware model -/

/-- Pin direction, the second argument of `pinMode`. -/
inductive PinMode
  | INPUT
  | OUTPUT
  deriving DecidableEq, Repr

/-- One hardware call, as recorded in the trace. -/
inductive Ev
  | noInterrupts
  | interrupts
  | pinMode (pin : Nat) (mode : PinMode)
  | digitalWrite (pin : Nat) (level : Nat)
  | delayMicroseconds (us : Nat)
  | digitalRead (pin : Nat) (level : Nat)
  deriving DecidableEq, Repr

/-- Driver object plus environment.  `line n` is the level seen by the `n`-th
`digitalRead` of the run, `pos` counts the samples taken so far, `irq` is the
interrupt-enable flag, `pin` is `_g_dq_pin`, `scratchpad` is the 9-byte buffer
and `trace` lists the hardware calls in the order they were made. -/
structure State where
  line : Nat → Bool
  pos : Nat
  irq : Bool
  pin : Nat
  scratchpad : Fin 9 → Nat
  trace : List Ev

def LOW : Nat := 0

def HIGH : Nat := 1

def Skip_ROM : Nat := 0xCC

def Convert_T : Nat := 0x44

def Read_Scratchpad : Nat := 0xBE

/-- The sentinel of `SimpleDs18b20.h`: `#define DEVICE_DISCONNECTED_C -127`. -/
def DEVICE_DISCONNECTED_C : ℚ := -127

def noInterrupts (s : State) : State :=
  { s with irq := false, trace := s.trace ++ [Ev.noInterrupts] }

def interrupts (s : State) : State :=
  { s with irq := true, trace := s.trace ++ [Ev.interrupts] }

def pinMode (pin : Nat) (mode : PinMode) (s : State) : State :=
  { s with trace := s.trace ++ [Ev.pinMode pin mode] }

def digitalWrite (pin : Nat) (level : Nat) (s : State) : State :=
  { s with trace := s.trace ++ [Ev.digitalWrite pin level] }

def delayMicroseconds (us : Nat) (s : State) : State :=
  { s with trace := s.trace ++ [Ev.delayMicroseconds us] }

/-- The value `digitalRead` reports for a line level: `HIGH` (1) or `LOW` (0). -/
def levelOf (b : Bool) : Nat := if b then HIGH else LOW

/-- Sampling the line consumes the next level of the stream. -/
def digitalRead (pin : Nat) (s : State) : Nat × State :=
  let v := levelOf (s.line s.pos)
  (v, { s with pos := s.pos + 1, trace := s.trace ++ [Ev.digitalRead pin v] })

/-- Arduino `bitRead(value, bit)`: `((value) >> (bit)) & 0x01`. -/
def bitRead (value bit : Nat) : Nat := (value >>> bit) &&& 0x01

/-- Arduino `bitSet(value, bit)` on a `uint8_t`: `value |= (1UL << bit)`. -/
def bitSet (value bit : Nat) : Nat := (value ||| (1 <<< bit)) % 256

/-- Arduino `bitClear(value, bit)` on a `uint8_t`: `value &= ~(1UL << bit)`,
the complement being taken in 32 bits. -/
def bitClear (value bit : Nat) : Nat := (value &&& (0xFFFFFFFF ^^^ (1 <<< bit))) % 256

/-! ## Temperature decoder -/

/-- `float SimpleDs18b20::CaculateTemperature(void)`.  `~x` on a `uint8_t`
stored back into a `uint8_t` is `255 - x`; `~x + 1` stored back is
`(255 - x + 1) mod 256`. -/
def CaculateTemperature (s : State) : ℚ :=
  let temp_LSB := s.scratchpad 0
  let temp_MSB := s.scratchpad 1
  let fp_minus := decide (temp_MSB > 0x7f)
  let temp_MSB' := if fp_minus then (255 - temp_MSB) % 256 else temp_MSB
  let temp_LSB' := if fp_minus then (255 - temp_LSB + 1) % 256 else temp_LSB
  let raw_temp := ((temp_MSB' <<< 8) ||| temp_LSB') % 65536
  let fp_temp : ℚ := (raw_temp : ℚ) * 0.0625
  if fp_minus then -fp_temp else fp_temp

/-! ## CRC-8 validator -/

/-- One round of the loop body of `ReCalculateCRC`. -/
def crcBitStep (input_byte : Nat) (old_CRC i : Nat) : Nat :=
  let rightmost_bit := old_CRC &&& 0x01
  let target_bit := (input_byte >>> i) &&& 0x01
  let polynomial_bit := target_bit ^^^ rightmost_bit
  let old_CRC := old_CRC >>> 1
  if polynomial_bit ≠ 0 then old_CRC ^^^ 0x8c else old_CRC

/-- `uint8_t SimpleDs18b20::ReCalculateCRC(uint8_t old_CRC, uint8_t input_byte)`. -/
def ReCalculateCRC (old_CRC input_byte : Nat) : Nat :=
  (List.range 8).foldl (crcBitStep input_byte) old_CRC

/-- `uint8_t SimpleDs18b20::CheckSratchpadCRC(void)`. -/
def CheckSratchpadCRC (s : State) : Nat :=
  let chip_CRC := s.scratchpad 8
  let check_CRC :=
    (List.range 8).foldl (fun c i => ReCalculateCRC c (s.scratchpad (Fin.ofNat i))) 0
  if check_CRC = chip_CRC then 1 else 0

/-! ## Bit slots and byte framing -/

/-- `uint8_t SimpleDs18b20::ReadSlot(void)`. -/
def ReadSlot (s : State) : Nat × State :=
  let s := noInterrupts s
  let s := delayMicroseconds 1 s
  let s := pinMode s.pin PinMode.OUTPUT s
  let s := digitalWrite s.pin LOW s
  let s := delayMicroseconds 1 s
  let s := delayMicroseconds 2 s
  let s := pinMode s.pin PinMode.INPUT s
  let s := delayMicroseconds 9 s
  let r := digitalRead s.pin s
  let s := interrupts r.2
  let s := delayMicroseconds 48 s
  (r.1, s)

/-- Loop body of `ReadByte`: one guarded read-slot stored into bit `i`. -/
def ReadByteStep (acc : Nat × State) (i : Nat) : Nat × State :=
  let s := noInterrupts acc.2
  let r := ReadSlot s
  let byte_in := if r.1 ≠ 0 then bitSet acc.1 i else bitClear acc.1 i
  (byte_in, interrupts r.2)

/-- `uint8_t SimpleDs18b20::ReadByte(void)`. -/
def ReadByte (s : State) : Nat × State :=
  (List.range 8).foldl ReadByteStep (0, s)

/-- `void SimpleDs18b20::WriteSolt(uint8_t order_bit)`. -/
def WriteSolt (order_bit : Nat) (s : State) : State :=
  if order_bit ≠ 0 then
    let s := noInterrupts s
    let s := pinMode s.pin PinMode.OUTPUT s
    let s := digitalWrite s.pin LOW s
    let s := delayMicroseconds 10 s
    let s := pinMode s.pin PinMode.INPUT s
    let s := interrupts s
    delayMicroseconds 60 s
  else
    let s := noInterrupts s
    let s := pinMode s.pin PinMode.OUTPUT s
    let s := digitalWrite s.pin LOW s
    let s := delayMicroseconds 65 s
    let s := pinMode s.pin PinMode.INPUT s
    let s := interrupts s
    delayMicroseconds 5 s

/-- Loop body of `SendCommand`. -/
def SendCommandStep (instruction : Nat) (s : State) (i : Nat) : State :=
  interrupts (WriteSolt (bitRead instruction i) (noInterrupts s))

/-- `void SimpleDs18b20::SendCommand(uint8_t instruction)`. -/
def SendCommand (instruction : Nat) (s : State) : State :=
  (List.range 8).foldl (SendCommandStep instruction) s

/-! ## Reset / presence handshake -/

/-- The `while(!digitalRead(_g_dq_pin))` loop of `TestConnect`.  `retries` is the
`uint8_t` counter; `fuel` bounds the number of iterations of the model. -/
def TestConnectLoop : Nat → Nat → State → Option (Nat × State)
  | 0, _, _ => none
  | fuel + 1, retries, s =>
    let r := digitalRead s.pin s
    if r.1 = 0 then
      let retries := (retries + 255) % 256
      if retries = 0 then some (0, r.2)
      else TestConnectLoop fuel retries (delayMicroseconds 4 r.2)
    else some (1, r.2)

/-- `uint8_t SimpleDs18b20::TestConnect(void)`. -/
def TestConnect (s : State) : Option (Nat × State) :=
  let retries := 60
  let s := noInterrupts s
  let s := pinMode s.pin PinMode.INPUT s
  let s := interrupts s
  TestConnectLoop 60 retries s

/-- `void SimpleDs18b20::TxReset(void)`. -/
def TxReset (s : State) : State :=
  let time_keep_low := 480
  let s := noInterrupts s
  let s := pinMode s.pin PinMode.OUTPUT s
  let s := digitalWrite s.pin LOW s
  let s := interrupts s
  let s := delayMicroseconds time_keep_low s
  pinMode s.pin PinMode.INPUT s

/-- `uint8_t SimpleDs18b20::RxResult(void)`: returns `!digitalRead(_g_dq_pin)`. -/
def RxResult (s : State) : Nat × State :=
  let time_wait_read := 70
  let s := delayMicroseconds time_wait_read s
  let r := digitalRead s.pin s
  (if r.1 = 0 then 1 else 0, r.2)

/-- `void SimpleDs18b20::ThroughRx(void)`. -/
def ThroughRx (s : State) : State :=
  let time_through := 410
  delayMicroseconds time_through s

/-- `uint8_t SimpleDs18b20::isConnected(void)`. -/
def isConnected (s : State) : Option (Nat × State) :=
  match TestConnect s with
  | none => none
  | some (t, s) =>
    if t = 0 then some (0, s)
    else
      let s := TxReset s
      let s := noInterrupts s
      let r := RxResult s
      let s := interrupts r.2
      let s := ThroughRx s
      some (r.1, s)

/-! ## Session protocol -/

/-- Loop body of `ShelveData`. -/
def ShelveDataStep (s : State) (i : Nat) : State :=
  let s := noInterrupts s
  let r := ReadByte s
  let s := { r.2 with scratchpad := Function.update r.2.scratchpad (Fin.ofNat i) r.1 }
  interrupts s

/-- `void SimpleDs18b20::ShelveData(void)`. -/
def ShelveData (s : State) : State :=
  (List.range 9).foldl ShelveDataStep s

/-- The busy-wait `while(! ReadSlot());` of `isFoundDataWarehouse`; `fuel`
bounds the number of read-slots of the model. -/
def busyWait : Nat → State → Option State
  | 0, _ => none
  | fuel + 1, s =>
    let r := ReadSlot s
    if r.1 = 0 then busyWait fuel r.2 else some r.2

/-- `uint8_t SimpleDs18b20::isFoundDataWarehouse(void)`. -/
def isFoundDataWarehouse (fuel : Nat) (s : State) : Option (Nat × State) :=
  match isConnected s with
  | none => none
  | some (c, s) =>
    if c = 0 then some (0, s)
    else
      let s := SendCommand Skip_ROM s
      let s := SendCommand Convert_T s
      match busyWait fuel s with
      | none => none
      | some s =>
        match isConnected s with
        | none => none
        | some (c, s) =>
          if c = 0 then some (0, s)
          else
            let s := SendCommand Skip_ROM s
            let s := SendCommand Read_Scratchpad s
            let s := ShelveData s
            some (CheckSratchpadCRC s, s)

/-- `float SimpleDs18b20::GetTemperature(void)`. -/
def GetTemperature (fuel : Nat) (s : State) : Option (ℚ × State) :=
  match isConnected s with
  | none => none
  | some (c, s) =>
    if c = 0 then some (DEVICE_DISCONNECTED_C, s)
    else
      match isFoundDataWarehouse fuel s with
      | none => none
      | some (f, s) =>
        if f = 0 then some (DEVICE_DISCONNECTED_C, s)
        else some (CaculateTemperature s, s)

/-! ## Trace vocabulary

The shapes the claims speak about: what one slot, one framed byte, one idle
check and one reset cycle look like in the trace. -/

/-- The state reached from `s` after taking `n` more samples and making the
calls `ops`, with interrupts enabled again. -/
def advance (s : State) (n : Nat) (ops : List Ev) : State :=
  { s with pos := s.pos + n, irq := true, trace := s.trace ++ ops }

/-- One read-slot that sampled level `v`. -/
def ReadSlotOps (pin v : Nat) : List Ev :=
  [Ev.noInterrupts, Ev.delayMicroseconds 1, Ev.pinMode pin PinMode.OUTPUT,
   Ev.digitalWrite pin LOW, Ev.delayMicroseconds 1, Ev.delayMicroseconds 2,
   Ev.pinMode pin PinMode.INPUT, Ev.delayMicroseconds 9, Ev.digitalRead pin v,
   Ev.interrupts, Ev.delayMicroseconds 48]

/-- One write-slot carrying `order_bit`. -/
def WriteSoltOps (pin order_bit : Nat) : List Ev :=
  if order_bit ≠ 0 then
    [Ev.noInterrupts, Ev.pinMode pin PinMode.OUTPUT, Ev.digitalWrite pin LOW,
     Ev.delayMicroseconds 10, Ev.pinMode pin PinMode.INPUT, Ev.interrupts,
     Ev.delayMicroseconds 60]
  else
    [Ev.noInterrupts, Ev.pinMode pin PinMode.OUTPUT, Ev.digitalWrite pin LOW,
     Ev.delayMicroseconds 65, Ev.pinMode pin PinMode.INPUT, Ev.interrupts,
     Ev.delayMicroseconds 5]

/-- Eight guarded write-slots, slot `i` carrying bit `i` of `instruction`. -/
def SendCommandOps (pin instruction : Nat) : List Ev :=
  (List.range 8).flatMap fun i =>
    Ev.noInterrupts :: WriteSoltOps pin (bitRead instruction i) ++ [Ev.interrupts]

/-- Eight guarded read-slots, slot `i` sampling level `l i`. -/
def ReadByteOps (pin : Nat) (l : Nat → Bool) : List Ev :=
  (List.range 8).flatMap fun i =>
    Ev.noInterrupts :: ReadSlotOps pin (levelOf (l i)) ++ [Ev.interrupts]

/-- Nine guarded byte reads, byte `i` sampling levels `l (8 * i) .. l (8 * i + 7)`. -/
def ShelveDataOps (pin : Nat) (l : Nat → Bool) : List Ev :=
  (List.range 9).flatMap fun i =>
    Ev.noInterrupts :: ReadByteOps pin (fun j => l (8 * i + j)) ++ [Ev.interrupts]

/-- The byte whose bit `i` is set exactly when level `l i` is high, `i = 0..7`. -/
def byteOfLevels (l : Nat → Bool) : Nat :=
  (List.range 8).foldl (fun acc i => acc + if l i then 2 ^ i else 0) 0

/-- Idle check that saw `k` low samples and then a high one. -/
def TestConnectOps (pin k : Nat) : List Ev :=
  [Ev.noInterrupts, Ev.pinMode pin PinMode.INPUT, Ev.interrupts] ++
    (List.replicate k [Ev.digitalRead pin LOW, Ev.delayMicroseconds 4]).flatten ++
    [Ev.digitalRead pin HIGH]

/-- Idle check that gave up: 60 low samples, 4 µs apart. -/
def TestConnectFailOps (pin : Nat) : List Ev :=
  [Ev.noInterrupts, Ev.pinMode pin PinMode.INPUT, Ev.interrupts] ++
    (List.replicate 59 [Ev.digitalRead pin LOW, Ev.delayMicroseconds 4]).flatten ++
    [Ev.digitalRead pin LOW]

/-- Reset pulse, presence sample of level `v`, recovery wait. -/
def ResetOps (pin v : Nat) : List Ev :=
  [Ev.noInterrupts, Ev.pinMode pin PinMode.OUTPUT, Ev.digitalWrite pin LOW,
   Ev.interrupts, Ev.delayMicroseconds 480, Ev.pinMode pin PinMode.INPUT,
   Ev.noInterrupts, Ev.delayMicroseconds 70, Ev.digitalRead pin v,
   Ev.interrupts, Ev.delayMicroseconds 410]

/-- A complete handshake: idle check with `k` low samples, then the reset cycle. -/
def HandshakeOps (pin k v : Nat) : List Ev := TestConnectOps pin k ++ ResetOps pin v

/-- Busy-wait that polled `k` low read-slots and then a high one. -/
def BusyWaitOps (pin k : Nat) : List Ev :=
  (List.replicate k (ReadSlotOps pin LOW)).flatten ++ ReadSlotOps pin HIGH

/-- From sample `p` on, the line is low for exactly `k` samples and then high. -/
def firstHighAt (line : Nat → Bool) (p k : Nat) : Prop :=
  (∀ j, j < k → line (p + j) = false) ∧ line (p + k) = true

/-- A handshake starting at sample `p` succeeds: the idle check sees `k < 60` low
samples and then a high one, and the presence sample after the reset is low. -/
def presentAt (line : Nat → Bool) (p k : Nat) : Prop :=
  k < 60 ∧ firstHighAt line p k ∧ line (p + (k + 1)) = false

/-- A handshake starting at sample `p` fails: either the idle check sees 60 low
samples, or it sees the line high but the presence sample is high too. -/
def absentAt (line : Nat → Bool) (p : Nat) : Prop :=
  (∀ j, j < 60 → line (p + j) = false) ∨
  ∃ k, k < 60 ∧ firstHighAt line p k ∧ line (p + (k + 1)) = true

/-- Every handshake of a session starting at sample `p` succeeds and the
busy-wait ends within `fuel` read-slots: `k1`, `k2`, `k3` low samples in the
idle checks, `kw` low read-slots in the busy-wait. -/
def sessionPasses (line : Nat → Bool) (p fuel k1 k2 kw k3 : Nat) : Prop :=
  presentAt line p k1 ∧
  presentAt line (p + (k1 + 2)) k2 ∧
  (kw < fuel ∧ firstHighAt line (p + (k1 + 2) + (k2 + 2)) kw) ∧
  presentAt line (p + (k1 + 2) + (k2 + 2) + (kw + 1)) k3

/-- Some handshake of a session starting at sample `p` fails: the first, or the
second after the first succeeded, or the third after the busy-wait ended. -/
def sessionAborts (line : Nat → Bool) (p fuel : Nat) : Prop :=
  absentAt line p ∨
  (∃ k1, presentAt line p k1 ∧ absentAt line (p + (k1 + 2))) ∨
  (∃ k1 k2 kw, presentAt line p k1 ∧ presentAt line (p + (k1 + 2)) k2 ∧
    (kw < fuel ∧ firstHighAt line (p + (k1 + 2) + (k2 + 2)) kw) ∧
    absentAt line (p + (k1 + 2) + (k2 + 2) + (kw + 1)))

/-- What a session that passes every handshake adds to the trace. -/
def SessionOps (pin k1 k2 kw k3 : Nat) (l : Nat → Bool) : List Ev :=
  HandshakeOps pin k1 LOW ++ HandshakeOps pin k2 LOW ++
  SendCommandOps pin Skip_ROM ++ SendCommandOps pin Convert_T ++
  BusyWaitOps pin kw ++
  HandshakeOps pin k3 LOW ++
  SendCommandOps pin Skip_ROM ++ SendCommandOps pin Read_Scratchpad ++
  ShelveDataOps pin l

/-- The state a session that passes every handshake ends in, starting from `s`:
`k1`, `k2`, `k3` are the low samples seen by the three idle checks and `kw` the
low read-slots of the busy-wait. -/
def sessionEnd (s : State) (k1 k2 kw k3 : Nat) : State :=
  { advance s ((k1 + 2) + (k2 + 2) + (kw + 1) + (k3 + 2) + 72)
      (SessionOps s.pin k1 k2 kw k3
        (fun j => s.line (s.pos + ((k1 + 2) + (k2 + 2) + (kw + 1) + (k3 + 2)) + j)))
    with scratchpad := fun i =>
      byteOfLevels (fun j =>
        s.line (s.pos + ((k1 + 2) + (k2 + 2) + (kw + 1) + (k3 + 2)) + (8 * i.val + j))) }

/-- The session as the specification lists it: one handshake, Skip-ROM,
Convert-T, busy-wait, one handshake, Skip-ROM, Read-Scratchpad, nine bytes. -/
def ClaimedSessionOps (pin k1 kw k3 : Nat) (l : Nat → Bool) : List Ev :=
  HandshakeOps pin k1 LOW ++
  SendCommandOps pin 0xCC ++ SendCommandOps pin 0x44 ++
  BusyWaitOps pin kw ++
  HandshakeOps pin k3 LOW ++
  SendCommandOps pin 0xCC ++ SendCommandOps pin 0xBE ++
  ShelveDataOps pin l

/-- Number of reset pulses (480 µs low) in a trace: one per completed handshake. -/
def resetPulses (tr : List Ev) : Nat := tr.count (Ev.delayMicroseconds 480)

/-- The calls that touch the line, i.e. the trace without the interrupt mask. -/
def lineOps (tr : List Ev) : List Ev :=
  tr.filter fun e => e ≠ Ev.noInterrupts ∧ e ≠ Ev.interrupts

/-! ## Reference CRC-8/MAXIM

Written from the published definition of the checksum (reflected polynomial
`0x8C`, initial value `0x00`, no final XOR), independently of the driver. -/

/-- Reference CRC-8/MAXIM, one shift: the register moves right by one bit and
the reflected polynomial `0x8C` is XORed in when the bit shifted out was set. -/
def crc8MaximBit (crc : Nat) : Nat :=
  if crc &&& 1 = 1 then (crc >>> 1) ^^^ 0x8C else crc >>> 1

/-- Reference CRC-8/MAXIM, one byte: XOR the byte into the register, then shift
eight times. -/
def crc8MaximByte (crc byte : Nat) : Nat :=
  (List.range 8).foldl (fun c _ => crc8MaximBit c) (crc ^^^ byte)

/-- Reference CRC-8/MAXIM of a byte sequence, initial register `0x00`. -/
def crc8Maxim (bytes : List Nat) : Nat := bytes.foldl crc8MaximByte 0x00

/-- The published Dallas/Maxim 256-entry lookup table. -/
def dscrc_table : List Nat :=
  [0, 94, 188, 226, 97, 63, 221, 131, 194, 156, 126, 32, 163, 253, 31, 65,
   157, 195, 33, 127, 252, 162, 64, 30, 95, 1, 227, 189, 62, 96, 130, 220,
   35, 125, 159, 193, 66, 28, 254, 160, 225, 191, 93, 3, 128, 222, 60, 98,
   190, 224, 2, 92, 223, 129, 99, 61, 124, 34, 192, 158, 29, 67, 161, 255,
   70, 24, 250, 164, 39, 121, 155, 197, 132, 218, 56, 102, 229, 187, 89, 7,
   219, 133, 103, 57, 186, 228, 6, 88, 25, 71, 165, 251, 120, 38, 196, 154,
   101, 59, 217, 135, 4, 90, 184, 230, 167, 249, 27, 69, 198, 152, 122, 36,
   248, 166, 68, 26, 153, 199, 37, 123, 58, 100, 134, 216, 91, 5, 231, 185,
   140, 210, 48, 110, 237, 179, 81, 15, 78, 16, 242, 172, 47, 113, 147, 205,
   17, 79, 173, 243, 112, 46, 204, 146, 211, 141, 111, 49, 178, 236, 14, 80,
   175, 241, 19, 77, 206, 144, 114, 44, 109, 51, 209, 143, 12, 82, 176, 238,
   50, 108, 142, 208, 83, 13, 239, 177, 240, 174, 76, 18, 145, 207, 45, 115,
   202, 148, 118, 40, 171, 245, 23, 73, 8, 86, 180, 234, 105, 55, 213, 139,
   87, 9, 235, 181, 54, 104, 138, 212, 149, 203, 41, 119, 244, 170, 72, 22,
   233, 183, 85, 11, 136, 214, 52, 106, 43, 117, 151, 201, 74, 20, 246, 168,
   116, 42, 200, 150, 21, 75, 169, 247, 182, 232, 10, 84, 215, 137, 107, 53]

/-- Table-driven Dallas/Maxim CRC: `crc := table[crc XOR byte]` per byte. -/
def crc8MaximTable (bytes : List Nat) : Nat :=
  bytes.foldl (fun crc b => dscrc_table.getD (crc ^^^ b) 0) 0x00

/-! ## Test benches -/

/-- A line that replays the listed levels and idles high afterwards. -/
def lineOf (l : List Bool) : Nat → Bool := fun n => l.getD n true

/-- The eight levels of a byte on the wire, least significant bit first. -/
def bitsOfByte (b : Nat) : List Bool := (List.range 8).map (fun i => b.testBit i)

/-- Scratchpad bytes 0..7, the part the checksum is computed over. -/
def dataBytes (s : State) : List Nat :=
  [s.scratchpad 0, s.scratchpad 1, s.scratchpad 2, s.scratchpad 3,
   s.scratchpad 4, s.scratchpad 5, s.scratchpad 6, s.scratchpad 7]

/-- All nine scratchpad bytes in order. -/
def allBytes (s : State) : List Nat := dataBytes s ++ [s.scratchpad 8]

/-- A driver on pin 2 with a zeroed scratchpad, interrupts enabled, empty trace. -/
def initState (line : Nat → Bool) : State :=
  { line := line, pos := 0, irq := true, pin := 2, scratchpad := fun _ => 0, trace := [] }

/-- A scratchpad image reading 25.0 °C with its checksum `0x33`. -/
def demoScratchpad : List Nat := [0x90, 0x01, 0x4B, 0x46, 0x7F, 0xFF, 0x0C, 0x10, 0x33]

/-- A healthy bus: three handshakes answered at once, a conversion that is busy
for one read-slot, then the nine bytes of `demoScratchpad`. -/
def demoLine : Nat → Bool :=
  lineOf ([true, false] ++ [true, false] ++ [false, true] ++ [true, false] ++
    demoScratchpad.flatMap bitsOfByte)

/-- A driver at rest whose scratchpad holds the listed bytes (missing ones are 0). -/
def padState (bytes : List Nat) : State :=
  { initState (lineOf []) with scratchpad := fun i => bytes.getD i.val 0 }

/-- The sensor's encoding of a signed count of sixteenths of a degree: the
16-bit two's-complement pattern, as (low byte, high byte). -/
def rawBytes (V : Int) : Nat × Nat :=
  ((V % 65536).toNat % 256, (V % 65536).toNat / 256)

/-- The signed value of the 16-bit two's-complement pattern with low byte `lsb`
and high byte `msb`. -/
def signed16 (lsb msb : Nat) : Int :=
  if msb * 256 + lsb ≥ 32768 then ((msb * 256 + lsb : Nat) : Int) - 65536
  else ((msb * 256 + lsb : Nat) : Int)

/-- A scratchpad image whose temperature bytes are `0x10`, `0xF8` (raw `0xF810`),
with its checksum `0x29`. -/
def sentinelScratchpad : List Nat := [0x10, 0xF8, 0x4B, 0x46, 0x7F, 0xFF, 0x0C, 0x10, 0x29]

/-- A healthy bus that delivers `sentinelScratchpad`. -/
def sentinelLine : Nat → Bool :=
  lineOf ([true, false] ++ [true, false] ++ [false, true] ++ [true, false] ++
    sentinelScratchpad.flatMap bitsOfByte)

/-- The duration of one call: the argument of a delay, 0 for everything else. -/
def delayOf : Ev → Nat
  | Ev.delayMicroseconds us => us
  | _ => 0

/-- Total delay, in µs, spent in a piece of trace. -/
def totalDelay (tr : List Ev) : Nat := (tr.map delayOf).sum

/-- Delay spent while the master drives the line low: from a `digitalWrite` of
`LOW` up to the next release of the line by `pinMode(INPUT)`. -/
def lowTimeAux : Bool → List Ev → Nat
  | _, [] => 0
  | low, Ev.digitalWrite _ level :: es => lowTimeAux (if level = LOW then true else low) es
  | _, Ev.pinMode _ PinMode.INPUT :: es => lowTimeAux false es
  | low, Ev.delayMicroseconds us :: es => (if low then us else 0) + lowTimeAux low es
  | low, _ :: es => lowTimeAux low es

/-- Delay spent with the line driven low, starting from a released line. -/
def lowTime (tr : List Ev) : Nat := lowTimeAux false tr

/-- Each call of a piece of trace paired with the interrupt-enable flag in force
when the call is made; `irq` is the flag before the first call. -/
def maskAt : Bool → List Ev → List (Ev × Bool)
  | _, [] => []
  | irq, Ev.noInterrupts :: es => (Ev.noInterrupts, irq) :: maskAt false es
  | irq, Ev.interrupts :: es => (Ev.interrupts, irq) :: maskAt true es
  | irq, e :: es => (e, irq) :: maskAt irq es

/-- The scratchpad with bit `p` of its 72 bits inverted: bit `p % 8` of byte `p / 8`. -/
def flipBit (s : State) (p : Nat) : State :=
  { s with scratchpad := fun i => s.scratchpad i ^^^ (if p / 8 = i.val then 2 ^ (p % 8) else 0) }

/-- The nine bytes of the error pattern that has bit `p` set and nothing else. -/
def errBytes (p : Nat) : List Nat :=
  (List.range 9).map fun i => if p / 8 = i then 2 ^ (p % 8) else 0

/-- The CRC register after the nine bytes of each single-bit error pattern. -/
def syndromeTable : List Nat :=
  [164, 81, 162, 93, 186, 109, 218, 173, 67, 134, 21, 42, 84, 168, 73, 146, 61, 122,
   244, 241, 251, 239, 199, 151, 55, 110, 220, 161, 91, 182, 117, 234, 205, 131, 31, 62,
   124, 248, 233, 203, 143, 7, 14, 28, 56, 112, 224, 217, 171, 79, 158, 37, 74, 148,
   49, 98, 196, 145, 59, 118, 236, 193, 155, 47, 94, 188, 97, 194, 157, 35, 70, 140]

/-! ## Summaries of the straight-line operations -/

@[simp]
theorem advance_pin (s : State) (n : Nat) (ops : List Ev) : (advance s n ops).pin = s.pin := rfl

@[simp]
theorem advance_line (s : State) (n : Nat) (ops : List Ev) : (advance s n ops).line = s.line := rfl

@[simp]
theorem advance_pos (s : State) (n : Nat) (ops : List Ev) : (advance s n ops).pos = s.pos + n := rfl

@[simp]
theorem advance_irq (s : State) (n : Nat) (ops : List Ev) : (advance s n ops).irq = true := rfl

@[simp]
theorem advance_trace (s : State) (n : Nat) (ops : List Ev) :
    (advance s n ops).trace = s.trace ++ ops := rfl

@[simp]
theorem advance_scratchpad (s : State) (n : Nat) (ops : List Ev) :
    (advance s n ops).scratchpad = s.scratchpad := rfl

@[simp]
theorem advance_advance (s : State) (n m : Nat) (a b : List Ev) :
    advance (advance s n a) m b = advance s (n + m) (a ++ b) := by
  simp [advance, Nat.add_assoc]

theorem ReadSlot_eq (s : State) :
    ReadSlot s = (levelOf (s.line s.pos), advance s 1 (ReadSlotOps s.pin (levelOf (s.line s.pos)))) := by
  simp [ReadSlot, advance, ReadSlotOps, noInterrupts, interrupts, pinMode, digitalWrite,
    delayMicroseconds, digitalRead]

theorem WriteSolt_eq (order_bit : Nat) (s : State) :
    WriteSolt order_bit s = advance s 0 (WriteSoltOps s.pin order_bit) := by
  by_cases h : order_bit = 0 <;>
  simp [WriteSolt, advance, WriteSoltOps, noInterrupts, interrupts, pinMode, digitalWrite,
    delayMicroseconds, h]

theorem range8 : List.range 8 = [0, 1, 2, 3, 4, 5, 6, 7] := by decide

theorem range9 : List.range 9 = [0, 1, 2, 3, 4, 5, 6, 7, 8] := by decide

theorem SendCommandStep_eq (b : Nat) (s : State) (i : Nat) :
    SendCommandStep b s i
      = advance s 0 (Ev.noInterrupts :: WriteSoltOps s.pin (bitRead b i) ++ [Ev.interrupts]) := by
  simp [SendCommandStep, WriteSolt_eq, advance, noInterrupts, interrupts]

theorem SendCommand_eq (b : Nat) (s : State) :
    SendCommand b s = advance s 0 (SendCommandOps s.pin b) := by
  simp only [SendCommand, SendCommandOps, range8, List.foldl_cons, List.foldl_nil,
    SendCommandStep_eq, advance_advance, advance_pin, List.flatMap_cons, List.flatMap_nil,
    List.append_nil, List.append_assoc]

theorem ReadByteStep_eq (acc : Nat) (s : State) (i : Nat) :
    ReadByteStep (acc, s) i
      = (if s.line s.pos then bitSet acc i else bitClear acc i,
         advance s 1
           (Ev.noInterrupts :: ReadSlotOps s.pin (levelOf (s.line s.pos)) ++ [Ev.interrupts])) := by
  cases h : s.line s.pos <;>
  simp [ReadByteStep, ReadSlot_eq, advance, noInterrupts, interrupts, levelOf, h, HIGH, LOW]

theorem assemble_bits :
    ∀ b0 b1 b2 b3 b4 b5 b6 b7 : Bool,
      (let a0 := if b0 then bitSet 0 0 else bitClear 0 0
       let a1 := if b1 then bitSet a0 1 else bitClear a0 1
       let a2 := if b2 then bitSet a1 2 else bitClear a1 2
       let a3 := if b3 then bitSet a2 3 else bitClear a2 3
       let a4 := if b4 then bitSet a3 4 else bitClear a3 4
       let a5 := if b5 then bitSet a4 5 else bitClear a4 5
       let a6 := if b6 then bitSet a5 6 else bitClear a5 6
       if b7 then bitSet a6 7 else bitClear a6 7)
      = (((((((0 + if b0 then 2 ^ 0 else 0) + if b1 then 2 ^ 1 else 0) + if b2 then 2 ^ 2 else 0)
          + if b3 then 2 ^ 3 else 0) + if b4 then 2 ^ 4 else 0) + if b5 then 2 ^ 5 else 0)
          + if b6 then 2 ^ 6 else 0) + if b7 then 2 ^ 7 else 0 := by
  decide!

theorem ReadByte_eq (s : State) :
    ReadByte s
      = (byteOfLevels (fun i => s.line (s.pos + i)),
         advance s 8 (ReadByteOps s.pin (fun i => s.line (s.pos + i)))) := by
  simp only [ReadByte, ReadByteOps, byteOfLevels, range8, List.foldl_cons, List.foldl_nil,
    ReadByteStep_eq, advance_advance, advance_pin, advance_pos, advance_line,
    List.flatMap_cons, List.flatMap_nil, List.append_nil, List.append_assoc, Nat.add_zero]
  rw [Prod.mk.injEq]
  refine ⟨assemble_bits _ _ _ _ _ _ _ _, ?_⟩
  rfl

theorem ShelveDataStep_eq (s : State) (i : Nat) :
    ShelveDataStep s i
      = { advance s 8
            (Ev.noInterrupts :: ReadByteOps s.pin (fun j => s.line (s.pos + j)) ++ [Ev.interrupts])
          with scratchpad :=
            Function.update s.scratchpad (Fin.ofNat i) (byteOfLevels (fun j => s.line (s.pos + j))) } := by
  simp [ShelveDataStep, ReadByte_eq, advance, noInterrupts, interrupts]

theorem ShelveData_eq (s : State) :
    ShelveData s
      = { advance s 72 (ShelveDataOps s.pin (fun j => s.line (s.pos + j)))
          with scratchpad := fun i => byteOfLevels (fun j => s.line (s.pos + (8 * i.val + j))) } := by
  simp only [ShelveData, ShelveDataOps, range9, List.foldl_cons, List.foldl_nil,
    ShelveDataStep_eq, List.flatMap_cons, List.flatMap_nil]
  simp only [advance, List.append_assoc, List.append_nil, Nat.add_assoc, Nat.mul_zero,
    Nat.zero_add, Nat.add_zero, Nat.mul_one, Nat.reduceMul, Nat.reduceAdd]
  congr 1
  funext i
  fin_cases i <;> rfl

/-! ## Summaries of the loops -/

theorem firstHighAt_succ (line : Nat → Bool) (p k : Nat) (h : firstHighAt line p (k + 1)) :
    line p = false ∧ firstHighAt line (p + 1) k := by
  obtain ⟨hl, hh⟩ := h
  refine ⟨by simpa using hl 0 (Nat.succ_pos k), ?_, ?_⟩
  · intro j hj
    have := hl (j + 1) (Nat.succ_lt_succ hj)
    simpa [Nat.add_assoc, Nat.add_comm 1 j] using this
  · simpa [Nat.add_assoc, Nat.add_comm 1 k] using hh

theorem TestConnectLoop_ok (k : Nat) :
    ∀ (fuel retries : Nat) (s : State), k < fuel → k < retries → retries < 256 →
      firstHighAt s.line s.pos k →
      TestConnectLoop fuel retries s
        = some (1, { s with
            pos := s.pos + (k + 1)
            trace := s.trace ++
              ((List.replicate k [Ev.digitalRead s.pin LOW, Ev.delayMicroseconds 4]).flatten ++
                [Ev.digitalRead s.pin HIGH]) }) := by
  induction k with
  | zero =>
    intro fuel retries s hf _ _ h
    obtain ⟨f, rfl⟩ : ∃ f, fuel = f + 1 := ⟨fuel - 1, by omega⟩
    have hh : s.line s.pos = true := by simpa using h.2
    simp [TestConnectLoop, digitalRead, levelOf, hh, HIGH]
  | succ k ih =>
    intro fuel retries s hf hr hr2 h
    obtain ⟨f, rfl⟩ : ∃ f, fuel = f + 1 := ⟨fuel - 1, by omega⟩
    obtain ⟨hl, hrest⟩ := firstHighAt_succ _ _ _ h
    have hne : (retries + 255) % 256 ≠ 0 := by omega
    have hk : k < (retries + 255) % 256 := by omega
    have hlt : (retries + 255) % 256 < 256 := Nat.mod_lt _ (by decide)
    have := ih f ((retries + 255) % 256)
      (delayMicroseconds 4 (digitalRead s.pin s).2) (by omega) hk hlt
      (by simpa [delayMicroseconds, digitalRead] using hrest)
    simp only [TestConnectLoop, digitalRead, levelOf, hl, LOW, hne] at this ⊢
    simp only [Bool.false_eq_true, if_false, if_true] at this ⊢
    rw [this]
    simp [delayMicroseconds, List.replicate_succ, Nat.add_assoc, Nat.add_comm 1 k,
      Nat.add_left_comm]

theorem TestConnectLoop_fail (n : Nat) :
    ∀ (fuel : Nat) (s : State), n < fuel → n + 1 < 256 →
      (∀ j, j < n + 1 → s.line (s.pos + j) = false) →
      TestConnectLoop fuel (n + 1) s
        = some (0, { s with
            pos := s.pos + (n + 1)
            trace := s.trace ++
              ((List.replicate n [Ev.digitalRead s.pin LOW, Ev.delayMicroseconds 4]).flatten ++
                [Ev.digitalRead s.pin LOW]) }) := by
  induction n with
  | zero =>
    intro fuel s hf _ h
    obtain ⟨f, rfl⟩ : ∃ f, fuel = f + 1 := ⟨fuel - 1, by omega⟩
    have hl : s.line s.pos = false := by simpa using h 0 (by omega)
    simp [TestConnectLoop, digitalRead, levelOf, hl, LOW]
  | succ n ih =>
    intro fuel s hf hn h
    obtain ⟨f, rfl⟩ : ∃ f, fuel = f + 1 := ⟨fuel - 1, by omega⟩
    have hl : s.line s.pos = false := by simpa using h 0 (by omega)
    have hdec : (n + 1 + 1 + 255) % 256 = n + 1 := by omega
    have := ih f (delayMicroseconds 4 (digitalRead s.pin s).2) (by omega) (by omega)
      (by
        intro j hj
        have := h (j + 1) (by omega)
        simpa [delayMicroseconds, digitalRead, Nat.add_assoc, Nat.add_comm 1 j] using this)
    simp only [TestConnectLoop, digitalRead, levelOf, hl, LOW, hdec] at this ⊢
    simp only [Bool.false_eq_true, if_false, if_true] at this ⊢
    rw [if_neg (by omega), this]
    simp [delayMicroseconds, List.replicate_succ, Nat.add_assoc, Nat.add_comm 1 n,
      Nat.add_left_comm]

theorem TestConnect_ok (s : State) (k : Nat) (hk : k < 60) (h : firstHighAt s.line s.pos k) :
    TestConnect s = some (1, advance s (k + 1) (TestConnectOps s.pin k)) := by
  have := TestConnectLoop_ok k 60 60
    (interrupts (pinMode s.pin PinMode.INPUT (noInterrupts s))) hk hk (by decide)
    (by simpa [interrupts, pinMode, noInterrupts] using h)
  simp only [TestConnect]
  simp only [interrupts, pinMode, noInterrupts] at this ⊢
  rw [this]
  simp [advance, TestConnectOps]

theorem TestConnect_fail (s : State) (h : ∀ j, j < 60 → s.line (s.pos + j) = false) :
    TestConnect s = some (0, advance s 60 (TestConnectFailOps s.pin)) := by
  have := TestConnectLoop_fail 59 60
    (interrupts (pinMode s.pin PinMode.INPUT (noInterrupts s))) (by decide) (by decide)
    (by simpa [interrupts, pinMode, noInterrupts] using h)
  simp only [TestConnect]
  simp only [interrupts, pinMode, noInterrupts] at this ⊢
  rw [this]
  simp [advance, TestConnectFailOps]

theorem firstHighAt_or_allLow (line : Nat → Bool) (p n : Nat) :
    (∃ k, k < n ∧ firstHighAt line p k) ∨ (∀ j, j < n → line (p + j) = false) := by
  induction n with
  | zero => exact Or.inr (fun j hj => absurd hj (Nat.not_lt_zero j))
  | succ n ih =>
    rcases ih with ⟨k, hk, h⟩ | h
    · exact Or.inl ⟨k, Nat.lt_succ_of_lt hk, h⟩
    · cases hn : line (p + n) with
      | true => exact Or.inl ⟨n, Nat.lt_succ_self n, h, hn⟩
      | false =>
        refine Or.inr (fun j hj => ?_)
        rcases Nat.lt_succ_iff_lt_or_eq.mp hj with hlt | heq
        · exact h j hlt
        · rw [heq]; exact hn

theorem isConnected_ok (s : State) (k : Nat) (hk : k < 60) (h : firstHighAt s.line s.pos k) :
    isConnected s
      = some (if s.line (s.pos + (k + 1)) then 0 else 1,
          advance s (k + 2) (HandshakeOps s.pin k (levelOf (s.line (s.pos + (k + 1)))))) := by
  simp only [isConnected, TestConnect_ok s k hk h]
  cases hp : s.line (s.pos + (k + 1)) <;>
  simp [TxReset, RxResult, ThroughRx, noInterrupts, interrupts, pinMode, digitalWrite,
    delayMicroseconds, digitalRead, advance, HandshakeOps, ResetOps, levelOf, hp, HIGH, LOW,
    Nat.add_assoc]

theorem isConnected_idle_fail (s : State) (h : ∀ j, j < 60 → s.line (s.pos + j) = false) :
    isConnected s = some (0, advance s 60 (TestConnectFailOps s.pin)) := by
  simp [isConnected, TestConnect_fail s h]

theorem busyWait_eq (k : Nat) :
    ∀ (fuel : Nat) (s : State), k < fuel → firstHighAt s.line s.pos k →
      busyWait fuel s = some (advance s (k + 1) (BusyWaitOps s.pin k)) := by
  induction k with
  | zero =>
    intro fuel s hf h
    obtain ⟨f, rfl⟩ : ∃ f, fuel = f + 1 := ⟨fuel - 1, by omega⟩
    have hh : s.line s.pos = true := by simpa using h.2
    simp [busyWait, ReadSlot_eq, levelOf, hh, HIGH, BusyWaitOps]
  | succ k ih =>
    intro fuel s hf h
    obtain ⟨f, rfl⟩ : ∃ f, fuel = f + 1 := ⟨fuel - 1, by omega⟩
    obtain ⟨hl, hrest⟩ := firstHighAt_succ _ _ _ h
    have := ih f (advance s 1 (ReadSlotOps s.pin LOW)) (by omega) (by simpa using hrest)
    simp only [busyWait, ReadSlot_eq, levelOf, hl, LOW] at this ⊢
    simp only [Bool.false_eq_true, if_false, if_true] at this ⊢
    rw [this]
    simp [BusyWaitOps, List.replicate_succ, Nat.add_assoc, Nat.add_comm 1 k, Nat.add_left_comm,
      LOW]

/-! ## The whole session -/

theorem isConnected_present (s : State) (k : Nat) (h : presentAt s.line s.pos k) :
    isConnected s = some (1, advance s (k + 2) (HandshakeOps s.pin k LOW)) := by
  obtain ⟨hk, hf, hp⟩ := h
  rw [isConnected_ok s k hk hf, hp]
  simp [levelOf]

theorem isFoundDataWarehouse_session (fuel : Nat) (s : State) (k2 kw k3 : Nat)
    (h2 : presentAt s.line s.pos k2)
    (hw : firstHighAt s.line (s.pos + (k2 + 2)) kw) (hfuel : kw < fuel)
    (h3 : presentAt s.line (s.pos + (k2 + 2) + (kw + 1)) k3) :
    isFoundDataWarehouse fuel s
      = some (CheckSratchpadCRC
          (ShelveData (advance s ((k2 + 2) + (kw + 1) + (k3 + 2))
            (HandshakeOps s.pin k2 LOW ++ SendCommandOps s.pin Skip_ROM ++
              SendCommandOps s.pin Convert_T ++ BusyWaitOps s.pin kw ++
              HandshakeOps s.pin k3 LOW ++ SendCommandOps s.pin Skip_ROM ++
              SendCommandOps s.pin Read_Scratchpad))),
          ShelveData (advance s ((k2 + 2) + (kw + 1) + (k3 + 2))
            (HandshakeOps s.pin k2 LOW ++ SendCommandOps s.pin Skip_ROM ++
              SendCommandOps s.pin Convert_T ++ BusyWaitOps s.pin kw ++
              HandshakeOps s.pin k3 LOW ++ SendCommandOps s.pin Skip_ROM ++
              SendCommandOps s.pin Read_Scratchpad))) := by
  have e1 := isConnected_present s k2 h2
  have e2 := busyWait_eq kw fuel
    (advance s (k2 + 2) (HandshakeOps s.pin k2 LOW ++ SendCommandOps s.pin Skip_ROM ++
      SendCommandOps s.pin Convert_T)) hfuel (by simpa using hw)
  have e3 := isConnected_present
    (advance s ((k2 + 2) + (kw + 1)) (HandshakeOps s.pin k2 LOW ++ SendCommandOps s.pin Skip_ROM ++
      SendCommandOps s.pin Convert_T ++ BusyWaitOps s.pin kw)) k3
    (by simpa [Nat.add_assoc] using h3)
  simp only [advance_advance, advance_pin, List.append_assoc, Nat.add_zero] at e2 e3
  simp only [isFoundDataWarehouse, e1, SendCommand_eq, advance_advance, advance_pin,
    List.append_assoc, Nat.add_zero, e2, e3]
  simp

theorem GetTemperature_session (fuel : Nat) (s : State) (k1 k2 kw k3 : Nat)
    (h1 : presentAt s.line s.pos k1)
    (h2 : presentAt s.line (s.pos + (k1 + 2)) k2)
    (hw : firstHighAt s.line (s.pos + (k1 + 2) + (k2 + 2)) kw) (hfuel : kw < fuel)
    (h3 : presentAt s.line (s.pos + (k1 + 2) + (k2 + 2) + (kw + 1)) k3) :
    GetTemperature fuel s
      = some (if CheckSratchpadCRC (sessionEnd s k1 k2 kw k3) = 0 then DEVICE_DISCONNECTED_C
              else CaculateTemperature (sessionEnd s k1 k2 kw k3),
          sessionEnd s k1 k2 kw k3) := by
  have e1 := isConnected_present s k1 h1
  have e2 := isFoundDataWarehouse_session fuel (advance s (k1 + 2) (HandshakeOps s.pin k1 LOW))
    k2 kw k3 (by simpa using h2) (by simpa using hw) hfuel (by simpa using h3)
  have e3 : ShelveData (advance (advance s (k1 + 2) (HandshakeOps s.pin k1 LOW))
      ((k2 + 2) + (kw + 1) + (k3 + 2))
      (HandshakeOps s.pin k2 LOW ++ SendCommandOps s.pin Skip_ROM ++
        SendCommandOps s.pin Convert_T ++ BusyWaitOps s.pin kw ++
        HandshakeOps s.pin k3 LOW ++ SendCommandOps s.pin Skip_ROM ++
        SendCommandOps s.pin Read_Scratchpad)) = sessionEnd s k1 k2 kw k3 := by
    rw [ShelveData_eq]
    simp [sessionEnd, SessionOps, advance, Nat.add_assoc]
  simp only [advance_pin] at e2
  rw [e3] at e2
  simp only [GetTemperature, e1, e2]
  by_cases hc : CheckSratchpadCRC (sessionEnd s k1 k2 kw k3) = 0 <;> simp [hc]

theorem present_or_absent (line : Nat → Bool) (p : Nat) :
    (∃ k, presentAt line p k) ∨ absentAt line p := by
  rcases firstHighAt_or_allLow line p 60 with ⟨k, hk, hf⟩ | h
  · cases hp : line (p + (k + 1)) with
    | false => exact Or.inl ⟨k, hk, hf, hp⟩
    | true => exact Or.inr (Or.inr ⟨k, hk, hf, hp⟩)
  · exact Or.inr (Or.inl h)

theorem isConnected_absent (s : State) (h : absentAt s.line s.pos) :
    ∃ s1, isConnected s = some (0, s1) := by
  rcases h with h | ⟨k, hk, hf, hp⟩
  · exact ⟨_, isConnected_idle_fail s h⟩
  · refine ⟨advance s (k + 2) (HandshakeOps s.pin k (levelOf true)), ?_⟩
    rw [isConnected_ok s k hk hf, hp]
    simp

theorem busyWait_allLow (fuel : Nat) :
    ∀ s : State, (∀ j, j < fuel → s.line (s.pos + j) = false) → busyWait fuel s = none := by
  induction fuel with
  | zero => intro s _; rfl
  | succ f ih =>
    intro s h
    have hl : s.line s.pos = false := by simpa using h 0 (Nat.succ_pos f)
    have := ih (advance s 1 (ReadSlotOps s.pin LOW)) (by
      intro j hj
      have := h (j + 1) (Nat.succ_lt_succ hj)
      simpa [Nat.add_assoc, Nat.add_comm 1 j] using this)
    simp only [busyWait, ReadSlot_eq, levelOf, hl, LOW] at this ⊢
    simpa using this

theorem GetTemperature_aborts (fuel : Nat) (s : State)
    (h : sessionAborts s.line s.pos fuel) :
    ∃ s1, GetTemperature fuel s = some (DEVICE_DISCONNECTED_C, s1) := by
  rcases h with h | ⟨k1, h1, h⟩ | ⟨k1, k2, kw, h1, h2, ⟨hfuel, hw⟩, h⟩
  · obtain ⟨s1, e⟩ := isConnected_absent s h
    exact ⟨s1, by simp [GetTemperature, e]⟩
  · have e1 := isConnected_present s k1 h1
    obtain ⟨s1, e2⟩ := isConnected_absent (advance s (k1 + 2) (HandshakeOps s.pin k1 LOW))
      (by simpa using h)
    exact ⟨s1, by simp [GetTemperature, isFoundDataWarehouse, e1, e2]⟩
  · have e1 := isConnected_present s k1 h1
    have e2 := isConnected_present (advance s (k1 + 2) (HandshakeOps s.pin k1 LOW)) k2
      (by simpa using h2)
    have e3 := busyWait_eq kw fuel
      (advance s ((k1 + 2) + (k2 + 2)) (HandshakeOps s.pin k1 LOW ++ HandshakeOps s.pin k2 LOW ++
        SendCommandOps s.pin Skip_ROM ++ SendCommandOps s.pin Convert_T)) hfuel
      (by simpa [Nat.add_assoc] using hw)
    obtain ⟨s1, e4⟩ := isConnected_absent
      (advance s ((k1 + 2) + (k2 + 2) + (kw + 1)) (HandshakeOps s.pin k1 LOW ++
        HandshakeOps s.pin k2 LOW ++ SendCommandOps s.pin Skip_ROM ++
        SendCommandOps s.pin Convert_T ++ BusyWaitOps s.pin kw))
      (by simpa [Nat.add_assoc] using h)
    simp only [advance_advance, advance_pin, List.append_assoc, Nat.add_zero] at e2 e3 e4
    refine ⟨s1, ?_⟩
    simp only [GetTemperature, isFoundDataWarehouse, e1, e2, SendCommand_eq, advance_advance,
      advance_pin, List.append_assoc, Nat.add_zero, e3, e4]
    simp

theorem GetTemperature_hangs (fuel : Nat) (s : State) (k1 k2 : Nat)
    (h1 : presentAt s.line s.pos k1) (h2 : presentAt s.line (s.pos + (k1 + 2)) k2)
    (hw : ∀ j, j < fuel → s.line (s.pos + (k1 + 2) + (k2 + 2) + j) = false) :
    GetTemperature fuel s = none := by
  have e1 := isConnected_present s k1 h1
  have e2 := isConnected_present (advance s (k1 + 2) (HandshakeOps s.pin k1 LOW)) k2
    (by simpa using h2)
  have e3 := busyWait_allLow fuel
    (advance s ((k1 + 2) + (k2 + 2)) (HandshakeOps s.pin k1 LOW ++ HandshakeOps s.pin k2 LOW ++
      SendCommandOps s.pin Skip_ROM ++ SendCommandOps s.pin Convert_T))
    (by simpa [Nat.add_assoc] using hw)
  simp only [advance_advance, advance_pin, List.append_assoc, Nat.add_zero] at e2 e3
  simp only [GetTemperature, isFoundDataWarehouse, e1, e2, SendCommand_eq, advance_advance,
    advance_pin, List.append_assoc, Nat.add_zero, e3]
  simp

theorem aborts_or_passes_or_hangs (line : Nat → Bool) (p fuel : Nat) :
    sessionAborts line p fuel ∨ (∃ k1 k2 kw k3, sessionPasses line p fuel k1 k2 kw k3) ∨
    (∃ k1 k2, presentAt line p k1 ∧ presentAt line (p + (k1 + 2)) k2 ∧
      ∀ j, j < fuel → line (p + (k1 + 2) + (k2 + 2) + j) = false) := by
  rcases present_or_absent line p with ⟨k1, h1⟩ | h
  · rcases present_or_absent line (p + (k1 + 2)) with ⟨k2, h2⟩ | h
    · rcases firstHighAt_or_allLow line (p + (k1 + 2) + (k2 + 2)) fuel with ⟨kw, hk, hw⟩ | h
      · rcases present_or_absent line (p + (k1 + 2) + (k2 + 2) + (kw + 1)) with ⟨k3, h3⟩ | h
        · exact Or.inr (Or.inl ⟨k1, k2, kw, k3, h1, h2, ⟨hk, hw⟩, h3⟩)
        · exact Or.inl (Or.inr (Or.inr ⟨k1, k2, kw, h1, h2, ⟨hk, hw⟩, h⟩))
      · exact Or.inr (Or.inr ⟨k1, k2, h1, h2, h⟩)
    · exact Or.inl (Or.inr (Or.inl ⟨k1, h1, h⟩))
  · exact Or.inl (Or.inl h)

/-! ## CRC: the driver's bit loop against the reference -/

theorem shiftRight_one_xor (c y : Nat) : (c ^^^ y) >>> 1 = (c >>> 1) ^^^ (y >>> 1) := by
  apply Nat.eq_of_testBit_eq
  intro i
  simp [Nat.testBit_shiftRight]

theorem crc8MaximBit_xor (c y : Nat) :
    (if ((y &&& 0x01) ^^^ (c &&& 0x01)) ≠ 0 then (c >>> 1) ^^^ 0x8c else c >>> 1) ^^^ (y >>> 1)
      = crc8MaximBit (c ^^^ y) := by
  unfold crc8MaximBit
  simp only [Nat.and_one_is_mod, shiftRight_one_xor, Nat.xor_mod_two_eq]
  rcases Nat.mod_two_eq_zero_or_one c with hc | hc <;>
  rcases Nat.mod_two_eq_zero_or_one y with hy | hy <;>
  · have h : (c + y) % 2 = (c % 2 + y % 2) % 2 := Nat.add_mod c y 2
    rw [h, hc, hy]
    simp [Nat.xor_assoc, Nat.xor_comm]
    try rw [← Nat.xor_assoc, Nat.xor_comm (y >>> 1), Nat.xor_assoc]

theorem crcBitStep_xor (b c i : Nat) :
    crcBitStep b c i ^^^ (b >>> (i + 1)) = crc8MaximBit (c ^^^ (b >>> i)) := by
  rw [← crc8MaximBit_xor, Nat.shiftRight_succ b i, ← Nat.shiftRight_eq_div_pow (b >>> i) 1]
  rfl

theorem crcFold_xor (b c : Nat) (n : Nat) :
    (List.range n).foldl (crcBitStep b) c ^^^ (b >>> n)
      = (List.range n).foldl (fun x _ => crc8MaximBit x) (c ^^^ b) := by
  induction n with
  | zero => simp
  | succ n ih =>
    rw [List.range_succ, List.foldl_append, List.foldl_append]
    simp only [List.foldl_cons, List.foldl_nil]
    rw [crcBitStep_xor, ih]

theorem ReCalculateCRC_eq_ref (c b : Nat) (hb : b < 256) :
    ReCalculateCRC c b = crc8MaximByte c b := by
  have h := crcFold_xor b c 8
  have hz : b >>> 8 = 0 := by
    rw [Nat.shiftRight_eq_div_pow]; exact Nat.div_eq_of_lt hb
  rw [hz, Nat.xor_zero] at h
  exact h

theorem dscrc_table_eq : ∀ x < 256, dscrc_table.getD x 0 = crc8MaximByte 0 x := by
  decide!

theorem dscrc_table_lt : ∀ x < 256, dscrc_table.getD x 0 < 256 := by
  decide!

theorem dscrc_table_zero : ∀ x < 256, dscrc_table.getD x 0 = 0 → x = 0 := by
  decide!

theorem crc8MaximByte_eq_table (c b : Nat) (hc : c < 256) (hb : b < 256) :
    crc8MaximByte c b = dscrc_table.getD (c ^^^ b) 0 := by
  have hx : c ^^^ b < 256 := Nat.xor_lt_two_pow (n := 8) hc hb
  rw [dscrc_table_eq _ hx]
  simp [crc8MaximByte]

theorem ReCalculateCRC_lt (c b : Nat) (hc : c < 256) (hb : b < 256) :
    ReCalculateCRC c b < 256 := by
  rw [ReCalculateCRC_eq_ref c b hb, crc8MaximByte_eq_table c b hc hb]
  exact dscrc_table_lt _ (Nat.xor_lt_two_pow (n := 8) hc hb)

theorem ReCalculateCRC_eq_zero (c b : Nat) (hc : c < 256) (hb : b < 256) :
    ReCalculateCRC c b = 0 ↔ c = b := by
  rw [ReCalculateCRC_eq_ref c b hb, crc8MaximByte_eq_table c b hc hb]
  constructor
  · intro h
    exact Nat.xor_eq_zero.mp (dscrc_table_zero _ (Nat.xor_lt_two_pow (n := 8) hc hb) h)
  · intro h
    subst h
    rw [Nat.xor_self]
    rfl

theorem crcFold_refines (bs : List Nat) :
    ∀ c, c < 256 → (∀ b ∈ bs, b < 256) →
      bs.foldl ReCalculateCRC c < 256 ∧
      bs.foldl ReCalculateCRC c = bs.foldl crc8MaximByte c ∧
      bs.foldl ReCalculateCRC c = bs.foldl (fun crc b => dscrc_table.getD (crc ^^^ b) 0) c := by
  induction bs with
  | nil => intro c hc _; exact ⟨hc, rfl, rfl⟩
  | cons b bs ih =>
    intro c hc hbs
    have hb : b < 256 := hbs b (List.mem_cons_self _ _)
    have hrest : ∀ x ∈ bs, x < 256 := fun x hx => hbs x (List.mem_cons_of_mem _ hx)
    have h1 := ih (ReCalculateCRC c b) (ReCalculateCRC_lt c b hc hb) hrest
    simp only [List.foldl_cons]
    refine ⟨h1.1, ?_, ?_⟩
    · rw [h1.2.1, ReCalculateCRC_eq_ref c b hb]
    · rw [h1.2.2, ReCalculateCRC_eq_ref c b hb, crc8MaximByte_eq_table c b hc hb]

theorem CheckSratchpadCRC_eq (s : State) :
    CheckSratchpadCRC s = if (dataBytes s).foldl ReCalculateCRC 0 = s.scratchpad 8 then 1 else 0 := by
  rfl

/-- C3: folding `ReCalculateCRC` from register `0x00` over any byte sequence is
the standard CRC-8/MAXIM of that sequence, both as the bitwise reference
(reflected polynomial `0x8C`, initial value `0x00`, no final XOR) and as the
table-driven Dallas/Maxim form; and the register `CheckSratchpadCRC` compares
with byte 8 is that CRC of scratchpad bytes 0..7. -/
theorem C3_crc_is_crc8_maxim (bs : List Nat) (hbs : ∀ b ∈ bs, b < 256) :
    bs.foldl ReCalculateCRC 0x00 = crc8Maxim bs ∧
    bs.foldl ReCalculateCRC 0x00 = crc8MaximTable bs ∧
    (∀ s : State, dataBytes s = bs →
      (CheckSratchpadCRC s = 1 ↔ crc8Maxim bs = s.scratchpad 8)) := by
  have h := crcFold_refines bs 0 (by decide) hbs
  refine ⟨h.2.1, h.2.2, ?_⟩
  intro s hs
  rw [CheckSratchpadCRC_eq, hs, h.2.1]
  unfold crc8Maxim
  split <;> simp_all

/-- C3 at the published check input: the nine ASCII bytes of "123456789" give
`0xA1` through the driver, the bitwise reference and the table. -/
theorem C3_crc_is_crc8_maxim_witness :
    [0x31, 0x32, 0x33, 0x34, 0x35, 0x36, 0x37, 0x38, 0x39].foldl ReCalculateCRC 0x00
      = crc8Maxim [0x31, 0x32, 0x33, 0x34, 0x35, 0x36, 0x37, 0x38, 0x39] ∧
    [0x31, 0x32, 0x33, 0x34, 0x35, 0x36, 0x37, 0x38, 0x39].foldl ReCalculateCRC 0x00
      = crc8MaximTable [0x31, 0x32, 0x33, 0x34, 0x35, 0x36, 0x37, 0x38, 0x39] ∧
    crc8Maxim [0x31, 0x32, 0x33, 0x34, 0x35, 0x36, 0x37, 0x38, 0x39] = 0xA1 :=
  ⟨(C3_crc_is_crc8_maxim [0x31, 0x32, 0x33, 0x34, 0x35, 0x36, 0x37, 0x38, 0x39]
      (by decide)).1,
   (C3_crc_is_crc8_maxim [0x31, 0x32, 0x33, 0x34, 0x35, 0x36, 0x37, 0x38, 0x39]
      (by decide)).2.1,
   by decide!⟩

/-- C4: CRC round trip.  `CheckSratchpadCRC` returns 1 exactly when byte 8 is the
CRC of bytes 0..7 and 0 otherwise; for given bytes 0..7 the CRC is the one and
only accepted value of byte 8; and acceptance is the same as the CRC register
being `0x00` after all nine bytes. -/
theorem C4_crc_round_trip (s : State) (hs : ∀ i, s.scratchpad i < 256) :
    (CheckSratchpadCRC s = 1 ↔ s.scratchpad 8 = (dataBytes s).foldl ReCalculateCRC 0x00) ∧
    (CheckSratchpadCRC s = 0 ↔ s.scratchpad 8 ≠ (dataBytes s).foldl ReCalculateCRC 0x00) ∧
    (∀ v, CheckSratchpadCRC { s with scratchpad := Function.update s.scratchpad 8 v } = 1
        ↔ v = (dataBytes s).foldl ReCalculateCRC 0x00) ∧
    (CheckSratchpadCRC s = 1 ↔ (allBytes s).foldl ReCalculateCRC 0x00 = 0x00) := by
  have hdata : ∀ b ∈ dataBytes s, b < 256 := by
    intro b hb
    simp only [dataBytes, List.mem_cons, List.mem_singleton, List.not_mem_nil, or_false] at hb
    rcases hb with h | h | h | h | h | h | h | h <;> (rw [h]; exact hs _)
  have hlt := (crcFold_refines (dataBytes s) 0 (by decide) hdata).1
  refine ⟨?_, ?_, ?_, ?_⟩
  · rw [CheckSratchpadCRC_eq]
    split
    · rename_i h; simp [h]
    · rename_i h; simp; exact fun h2 => h h2.symm
  · rw [CheckSratchpadCRC_eq]
    split
    · rename_i h; simp [h]
    · rename_i h; simp; exact fun h2 => h h2.symm
  · intro v
    rw [CheckSratchpadCRC_eq]
    have hd : dataBytes { s with scratchpad := Function.update s.scratchpad 8 v } = dataBytes s := by
      simp [dataBytes, Function.update]
    rw [hd]
    simp only [Function.update_same]
    split
    · rename_i h; simp [h]
    · rename_i h; simp; exact fun h2 => h h2.symm
  · rw [CheckSratchpadCRC_eq, allBytes, List.foldl_append]
    simp only [List.foldl_cons, List.foldl_nil]
    rw [ReCalculateCRC_eq_zero _ _ hlt (hs 8)]
    split
    · rename_i h; simp [h]
    · rename_i h; simp [h]

/-- C4 on a concrete scratchpad (25.0 °C, trailing CRC `0x33`): it is accepted
and the nine-byte register is zero. -/
theorem C4_crc_round_trip_witness :
    CheckSratchpadCRC (padState [0x90, 0x01, 0x4B, 0x46, 0x7F, 0xFF, 0x0C, 0x10, 0x33]) = 1 ∧
    (allBytes (padState [0x90, 0x01, 0x4B, 0x46, 0x7F, 0xFF, 0x0C, 0x10, 0x33])).foldl
      ReCalculateCRC 0x00 = 0x00 :=
  ⟨by decide!,
   (C4_crc_round_trip (padState [0x90, 0x01, 0x4B, 0x46, 0x7F, 0xFF, 0x0C, 0x10, 0x33])
      (by decide)).2.2.2.mp (by decide!)⟩

/-! ## Temperature decoder -/

theorem shiftLeft_or_eq (m l : Nat) (hl : l < 256) : (m <<< 8 ||| l) = m * 256 + l := by
  rw [Nat.shiftLeft_eq, Nat.mul_comm]
  exact (Nat.mul_add_lt_is_or (i := 8) hl m).symm

/-- C5 (failing input): raw `0xFF00` encodes V = -256, i.e. -16.0 °C, inside the
supported range, and the decoder returns 0 for it: the low byte `0x00` negates to
`0x00` with a carry that is never added to the high byte. -/
theorem C5_decoder_loses_carry :
    (-880 : Int) ≤ -256 ∧ (-256 : Int) ≤ 2000 ∧ rawBytes (-256) = (0x00, 0xFF) ∧
    CaculateTemperature (padState [(rawBytes (-256)).1, (rawBytes (-256)).2]) = 0 ∧
    CaculateTemperature (padState [(rawBytes (-256)).1, (rawBytes (-256)).2])
      ≠ ((-256 : Int) : ℚ) / 16 := by
  have h : CaculateTemperature (padState [(rawBytes (-256)).1, (rawBytes (-256)).2]) = 0 := by
    simp [CaculateTemperature, padState, initState, rawBytes]
  refine ⟨by decide, by decide, by decide, h, ?_⟩
  rw [h]
  norm_num

/-- C6: the three documented raw values decode to the documented readings:
`0x0190` to 25.0, `0xFE6F` to -25.0625 and `0x0000` to 0.0. -/
theorem C6_documented_readings (s : State) :
    (s.scratchpad 0 = 0x90 → s.scratchpad 1 = 0x01 → CaculateTemperature s = 25.0) ∧
    (s.scratchpad 0 = 0x6F → s.scratchpad 1 = 0xFE → CaculateTemperature s = -25.0625) ∧
    (s.scratchpad 0 = 0x00 → s.scratchpad 1 = 0x00 → CaculateTemperature s = 0.0) := by
  refine ⟨?_, ?_, ?_⟩ <;>
  · intro h0 h1
    simp only [CaculateTemperature, h0, h1]
    norm_num [shiftLeft_or_eq]

/-- C6 on concrete scratchpads. -/
theorem C6_documented_readings_witness :
    CaculateTemperature (padState [0x90, 0x01]) = 25.0 ∧
    CaculateTemperature (padState [0x6F, 0xFE]) = -25.0625 ∧
    CaculateTemperature (padState [0x00, 0x00]) = 0.0 :=
  ⟨(C6_documented_readings (padState [0x90, 0x01])).1 rfl rfl,
   (C6_documented_readings (padState [0x6F, 0xFE])).2.1 rfl rfl,
   (C6_documented_readings (padState [0x00, 0x00])).2.2 rfl rfl⟩

/-- C7 (as stated, refuted): with MSB = `0xF8` and LSB = `0x30` the decoder does
not return -55.0. -/
theorem C7_F830_is_not_minus_55 :
    ¬ (CaculateTemperature (padState [0x30, 0xF8]) = -55.0) := by
  simp only [CaculateTemperature, padState, initState]
  norm_num [shiftLeft_or_eq]

/-- C7 (amended): MSB = `0x00`, LSB = `0x00` gives 0.0; MSB = `0x07`, LSB = `0xD0`
gives 125.0, the maximum; MSB = `0xF8`, LSB = `0x30` gives -125.0; the minimum
-55.0 is what MSB = `0xFC`, LSB = `0x90` gives. -/
theorem C7_range_limits (s : State) :
    (s.scratchpad 1 = 0x00 → s.scratchpad 0 = 0x00 → CaculateTemperature s = 0.0) ∧
    (s.scratchpad 1 = 0x07 → s.scratchpad 0 = 0xD0 → CaculateTemperature s = 125.0) ∧
    (s.scratchpad 1 = 0xF8 → s.scratchpad 0 = 0x30 → CaculateTemperature s = -125.0) ∧
    (s.scratchpad 1 = 0xFC → s.scratchpad 0 = 0x90 → CaculateTemperature s = -55.0) := by
  refine ⟨?_, ?_, ?_, ?_⟩ <;>
  · intro h1 h0
    simp only [CaculateTemperature, h0, h1]
    norm_num [shiftLeft_or_eq]

/-- C7 (amended) on concrete scratchpads. -/
theorem C7_range_limits_witness :
    CaculateTemperature (padState [0x00, 0x00]) = 0.0 ∧
    CaculateTemperature (padState [0xD0, 0x07]) = 125.0 ∧
    CaculateTemperature (padState [0x30, 0xF8]) = -125.0 ∧
    CaculateTemperature (padState [0x90, 0xFC]) = -55.0 :=
  ⟨(C7_range_limits (padState [0x00, 0x00])).1 rfl rfl,
   (C7_range_limits (padState [0xD0, 0x07])).2.1 rfl rfl,
   (C7_range_limits (padState [0x30, 0xF8])).2.2.1 rfl rfl,
   (C7_range_limits (padState [0x90, 0xFC])).2.2.2 rfl rfl⟩

/-! ## Handshake -/

theorem HandshakeOps_delays (pin k v d : Nat)
    (h : Ev.delayMicroseconds d ∈ HandshakeOps pin k v) :
    d = 4 ∨ d = 480 ∨ d = 70 ∨ d = 410 := by
  simp only [HandshakeOps, TestConnectOps, ResetOps, List.mem_append, List.mem_flatten,
    List.mem_replicate, List.mem_cons, List.mem_singleton, List.not_mem_nil, or_false,
    false_or, reduceCtorEq, Ev.delayMicroseconds.injEq] at h
  rcases h with ⟨l, ⟨_, rfl⟩, hl⟩ | h
  · simp only [List.mem_cons, List.mem_singleton, List.not_mem_nil, or_false, false_or,
      reduceCtorEq, Ev.delayMicroseconds.injEq] at hl
    exact Or.inl hl
  · exact Or.inr h

/-- C2: when the idle check of the first handshake sees the line high (after
`k < 60` low samples) but the presence sample is high, `GetTemperature` returns
the sentinel whatever the fuel, takes no sample beyond the presence sample,
leaves the scratchpad alone, and adds to the trace the calls of that one
handshake only; no write-slot and no read-slot occurs anywhere in them. -/
theorem C2_no_presence_aborts (fuel : Nat) (s : State) (k : Nat) (hk : k < 60)
    (hidle : firstHighAt s.line s.pos k) (hpres : s.line (s.pos + (k + 1)) = true) :
    GetTemperature fuel s
      = some (DEVICE_DISCONNECTED_C, advance s (k + 2) (HandshakeOps s.pin k HIGH)) ∧
    DEVICE_DISCONNECTED_C = -127 ∧
    (∀ pin bit a b, HandshakeOps s.pin k HIGH ≠ a ++ WriteSoltOps pin bit ++ b) ∧
    (∀ pin v a b, HandshakeOps s.pin k HIGH ≠ a ++ ReadSlotOps pin v ++ b) := by
  refine ⟨?_, rfl, ?_, ?_⟩
  · simp [GetTemperature, isConnected_ok s k hk hidle, hpres, levelOf]
  · intro pin bit a b heq
    by_cases hb : bit = 0
    · have hm : Ev.delayMicroseconds 65 ∈ HandshakeOps s.pin k HIGH := by
        rw [heq]; simp [WriteSoltOps, hb]
      have := HandshakeOps_delays _ _ _ _ hm
      omega
    · have hm : Ev.delayMicroseconds 10 ∈ HandshakeOps s.pin k HIGH := by
        rw [heq]; simp [WriteSoltOps, hb]
      have := HandshakeOps_delays _ _ _ _ hm
      omega
  · intro pin v a b heq
    have hm : Ev.delayMicroseconds 9 ∈ HandshakeOps s.pin k HIGH := by
      rw [heq]; simp [ReadSlotOps]
    have := HandshakeOps_delays _ _ _ _ hm
    omega

/-- C2 on a line that idles high and never shows a presence pulse. -/
theorem C2_no_presence_aborts_witness :
    GetTemperature 0 (initState (lineOf [true, true]))
      = some (DEVICE_DISCONNECTED_C,
          advance (initState (lineOf [true, true])) 2 (HandshakeOps 2 0 HIGH)) :=
  (C2_no_presence_aborts 0 (initState (lineOf [true, true])) 0 (by decide)
    ⟨fun j hj => absurd hj (Nat.not_lt_zero j), rfl⟩ rfl).1

/-- C10: once the idle check has passed, `isConnected` drives the line low, waits
480 µs, releases the line, waits 70 µs, samples once, waits 410 µs, in that
order and for either sampled level; it returns 1 when the sample is low and 0
when it is high. -/
theorem C10_handshake_phases (s s1 : State) (t : Nat) (h : TestConnect s = some (t, s1))
    (ht : t ≠ 0) :
    isConnected s
      = some (if s1.line s1.pos then 0 else 1,
          advance s1 1
            [Ev.noInterrupts, Ev.pinMode s1.pin PinMode.OUTPUT, Ev.digitalWrite s1.pin LOW,
             Ev.interrupts, Ev.delayMicroseconds 480, Ev.pinMode s1.pin PinMode.INPUT,
             Ev.noInterrupts, Ev.delayMicroseconds 70,
             Ev.digitalRead s1.pin (levelOf (s1.line s1.pos)),
             Ev.interrupts, Ev.delayMicroseconds 410]) ∧
    lineOps
        [Ev.noInterrupts, Ev.pinMode s1.pin PinMode.OUTPUT, Ev.digitalWrite s1.pin LOW,
         Ev.interrupts, Ev.delayMicroseconds 480, Ev.pinMode s1.pin PinMode.INPUT,
         Ev.noInterrupts, Ev.delayMicroseconds 70,
         Ev.digitalRead s1.pin (levelOf (s1.line s1.pos)),
         Ev.interrupts, Ev.delayMicroseconds 410]
      = [Ev.pinMode s1.pin PinMode.OUTPUT, Ev.digitalWrite s1.pin LOW,
         Ev.delayMicroseconds 480, Ev.pinMode s1.pin PinMode.INPUT,
         Ev.delayMicroseconds 70, Ev.digitalRead s1.pin (levelOf (s1.line s1.pos)),
         Ev.delayMicroseconds 410] := by
  refine ⟨?_, ?_⟩
  · simp only [isConnected, h, if_neg ht]
    cases hp : s1.line s1.pos <;>
    simp [TxReset, RxResult, ThroughRx, noInterrupts, interrupts, pinMode, digitalWrite,
      delayMicroseconds, digitalRead, advance, levelOf, hp, HIGH, LOW]
  · simp [lineOps, List.filter]

/-- C10 on a line that idles high and answers the reset with a presence pulse. -/
theorem C10_handshake_phases_witness :
    isConnected (initState (lineOf [true, false]))
      = some (1,
          advance (advance (initState (lineOf [true, false])) 1 (TestConnectOps 2 0)) 1
            [Ev.noInterrupts, Ev.pinMode 2 PinMode.OUTPUT, Ev.digitalWrite 2 LOW,
             Ev.interrupts, Ev.delayMicroseconds 480, Ev.pinMode 2 PinMode.INPUT,
             Ev.noInterrupts, Ev.delayMicroseconds 70, Ev.digitalRead 2 LOW,
             Ev.interrupts, Ev.delayMicroseconds 410]) :=
  (C10_handshake_phases (initState (lineOf [true, false]))
    (advance (initState (lineOf [true, false])) 1 (TestConnectOps 2 0)) 1
    (TestConnect_ok (initState (lineOf [true, false])) 0 (by decide)
      ⟨fun j hj => absurd hj (Nat.not_lt_zero j), rfl⟩)
    (by decide)).1

/-! ## Byte framing -/

theorem byteOfLevels_unfold (l : Nat → Bool) :
    byteOfLevels l
      = (((((((0 + if l 0 then 2 ^ 0 else 0) + if l 1 then 2 ^ 1 else 0)
          + if l 2 then 2 ^ 2 else 0) + if l 3 then 2 ^ 3 else 0) + if l 4 then 2 ^ 4 else 0)
          + if l 5 then 2 ^ 5 else 0) + if l 6 then 2 ^ 6 else 0) + if l 7 then 2 ^ 7 else 0 := by
  simp only [byteOfLevels, range8, List.foldl_cons, List.foldl_nil]

theorem sum_bits :
    ∀ b0 b1 b2 b3 b4 b5 b6 b7 : Bool,
      ((((((((0 + if b0 then 2 ^ 0 else 0) + if b1 then 2 ^ 1 else 0)
          + if b2 then 2 ^ 2 else 0) + if b3 then 2 ^ 3 else 0) + if b4 then 2 ^ 4 else 0)
          + if b5 then 2 ^ 5 else 0) + if b6 then 2 ^ 6 else 0) + if b7 then 2 ^ 7 else 0) < 256 ∧
      ∀ i, i < 8 →
        Nat.testBit ((((((((0 + if b0 then 2 ^ 0 else 0) + if b1 then 2 ^ 1 else 0)
          + if b2 then 2 ^ 2 else 0) + if b3 then 2 ^ 3 else 0) + if b4 then 2 ^ 4 else 0)
          + if b5 then 2 ^ 5 else 0) + if b6 then 2 ^ 6 else 0) + if b7 then 2 ^ 7 else 0) i
          = [b0, b1, b2, b3, b4, b5, b6, b7].getD i false := by
  decide!

theorem byteOfLevels_spec (l : Nat → Bool) :
    byteOfLevels l < 256 ∧ ∀ i, i < 8 → (byteOfLevels l).testBit i = l i := by
  rw [byteOfLevels_unfold]
  have h := sum_bits (l 0) (l 1) (l 2) (l 3) (l 4) (l 5) (l 6) (l 7)
  refine ⟨h.1, fun i hi => ?_⟩
  rw [h.2 i hi]
  have : i = 0 ∨ i = 1 ∨ i = 2 ∨ i = 3 ∨ i = 4 ∨ i = 5 ∨ i = 6 ∨ i = 7 := by omega
  rcases this with h | h | h | h | h | h | h | h <;> (subst h; rfl)

theorem byteOfLevels_bitRead : ∀ b, b < 256 → byteOfLevels (fun i => decide (bitRead b i ≠ 0)) = b := by
  decide!

theorem bitRead_eq : ∀ i, i < 8 → ∀ b, b < 256 → bitRead b i = if b.testBit i then 1 else 0 := by
  decide!

/-- C9: byte framing is least-significant-bit first and its own inverse.
`SendCommand b` adds exactly eight guarded write-slots to the trace, slot `i`
carrying bit `i` of `b`; `ReadByte` takes exactly eight samples in eight guarded
read-slots and returns the byte below 256 whose bit `i` is the `i`-th sampled
level; so a line that replays the bits written for `b` makes `ReadByte` return `b`. -/
theorem C9_byte_framing (s : State) :
    (∀ b, SendCommand b s
        = advance s 0
            ((List.range 8).flatMap fun i =>
              Ev.noInterrupts :: WriteSoltOps s.pin (bitRead b i) ++ [Ev.interrupts])) ∧
    (∀ b, b < 256 → ∀ i, i < 8 → bitRead b i = if b.testBit i then 1 else 0) ∧
    ReadByte s
      = (byteOfLevels (fun i => s.line (s.pos + i)),
         advance s 8
           ((List.range 8).flatMap fun i =>
             Ev.noInterrupts :: ReadSlotOps s.pin (levelOf (s.line (s.pos + i)))
               ++ [Ev.interrupts])) ∧
    (ReadByte s).1 < 256 ∧
    (∀ i, i < 8 → (ReadByte s).1.testBit i = s.line (s.pos + i)) ∧
    (∀ b, b < 256 → (∀ i, i < 8 → s.line (s.pos + i) = decide (bitRead b i ≠ 0)) →
      (ReadByte s).1 = b) := by
  have hspec := byteOfLevels_spec (fun i => s.line (s.pos + i))
  refine ⟨fun b => SendCommand_eq b s, fun b hb i hi => bitRead_eq i hi b hb, ReadByte_eq s,
    ?_, ?_, ?_⟩
  · rw [ReadByte_eq]; exact hspec.1
  · rw [ReadByte_eq]; exact hspec.2
  · intro b hb hl
    rw [ReadByte_eq]
    show byteOfLevels (fun i => s.line (s.pos + i)) = b
    rw [byteOfLevels_unfold, hl 0 (by decide), hl 1 (by decide), hl 2 (by decide),
      hl 3 (by decide), hl 4 (by decide), hl 5 (by decide), hl 6 (by decide), hl 7 (by decide),
      ← byteOfLevels_unfold (fun i => decide (bitRead b i ≠ 0))]
    exact byteOfLevels_bitRead b hb

/-- C9 on the Read-Scratchpad code: a line replaying the bits written for `0xBE`
is read back as `0xBE`. -/
theorem C9_byte_framing_witness :
    (ReadByte (initState (lineOf (bitsOfByte 0xBE)))).1 = 0xBE :=
  (C9_byte_framing (initState (lineOf (bitsOfByte 0xBE)))).2.2.2.2.2 0xBE (by decide)
    (by decide)

/-! ## Session: outcome and sequence -/

theorem demo_passes : sessionPasses demoLine 0 2 0 0 1 0 := by
  unfold sessionPasses presentAt firstHighAt
  decide

theorem demo_crc : CheckSratchpadCRC (sessionEnd (initState demoLine) 0 0 1 0) = 1 := by
  decide!

theorem demo_decode : CaculateTemperature (sessionEnd (initState demoLine) 0 0 1 0) = 25 := by
  have h0 : (sessionEnd (initState demoLine) 0 0 1 0).scratchpad 0 = 0x90 := by decide!
  have h1 : (sessionEnd (initState demoLine) 0 0 1 0).scratchpad 1 = 0x01 := by decide!
  simp only [CaculateTemperature, h0, h1]
  norm_num [shiftLeft_or_eq]

theorem demo_run :
    GetTemperature 2 (initState demoLine)
      = some (25, sessionEnd (initState demoLine) 0 0 1 0) := by
  have h := GetTemperature_session 2 (initState demoLine) 0 0 1 0
    demo_passes.1 demo_passes.2.1 demo_passes.2.2.1.2 demo_passes.2.2.1.1 demo_passes.2.2.2
  rw [h, demo_crc, demo_decode]
  simp

/-- C1: on every run that terminates, `GetTemperature` returns the sentinel -127
whenever a handshake fails (60 low idle samples, or a high presence sample, in
any of the handshakes) or the CRC over the bytes just read differs from byte 8;
otherwise all handshakes passed, the scratchpad holds the nine bytes just read,
it passes `CheckSratchpadCRC`, and the result is what `CaculateTemperature`
decodes from it.  One of the two situations always applies. -/
theorem C1_sentinel_or_decoded (fuel : Nat) (s : State) (r : ℚ) (s' : State)
    (h : GetTemperature fuel s = some (r, s')) :
    DEVICE_DISCONNECTED_C = -127 ∧
    (sessionAborts s.line s.pos fuel → r = DEVICE_DISCONNECTED_C) ∧
    (∀ k1 k2 kw k3, sessionPasses s.line s.pos fuel k1 k2 kw k3 →
      s' = sessionEnd s k1 k2 kw k3 ∧
      ((dataBytes s').foldl ReCalculateCRC 0x00 ≠ s'.scratchpad 8 → r = DEVICE_DISCONNECTED_C) ∧
      ((dataBytes s').foldl ReCalculateCRC 0x00 = s'.scratchpad 8 →
        CheckSratchpadCRC s' = 1 ∧ r = CaculateTemperature s')) ∧
    (sessionAborts s.line s.pos fuel ∨ ∃ k1 k2 kw k3, sessionPasses s.line s.pos fuel k1 k2 kw k3) := by
  refine ⟨rfl, ?_, ?_, ?_⟩
  · intro ha
    obtain ⟨s1, e⟩ := GetTemperature_aborts fuel s ha
    rw [e] at h
    simp only [Option.some.injEq, Prod.mk.injEq] at h
    exact h.1.symm
  · intro k1 k2 kw k3 ⟨h1, h2, ⟨hfuel, hw⟩, h3⟩
    have e := GetTemperature_session fuel s k1 k2 kw k3 h1 h2 hw hfuel h3
    rw [e] at h
    simp only [Option.some.injEq, Prod.mk.injEq] at h
    obtain ⟨hr, hs⟩ := h
    subst hs
    rw [CheckSratchpadCRC_eq] at hr
    refine ⟨rfl, ?_, ?_⟩
    · intro hne
      rw [if_neg hne] at hr
      simpa using hr.symm
    · intro heq
      rw [if_pos heq] at hr
      refine ⟨by rw [CheckSratchpadCRC_eq, if_pos heq], ?_⟩
      simpa using hr.symm
  · rcases aborts_or_passes_or_hangs s.line s.pos fuel with ha | hp | ⟨k1, k2, h1, h2, hw⟩
    · exact Or.inl ha
    · exact Or.inr hp
    · rw [GetTemperature_hangs fuel s k1 k2 h1 h2 hw] at h
      exact absurd h (by simp)

/-- C1 on the healthy bus `demoLine`: the run returns 25.0, every handshake
passed, and the value is the decoding of a scratchpad that passed the CRC. -/
theorem C1_sentinel_or_decoded_witness :
    GetTemperature 2 (initState demoLine)
      = some (25, sessionEnd (initState demoLine) 0 0 1 0) ∧
    CheckSratchpadCRC (sessionEnd (initState demoLine) 0 0 1 0) = 1 ∧
    (25 : ℚ) = CaculateTemperature (sessionEnd (initState demoLine) 0 0 1 0) :=
  ⟨demo_run,
   ((C1_sentinel_or_decoded 2 (initState demoLine) 25 (sessionEnd (initState demoLine) 0 0 1 0)
      demo_run).2.2.1 0 0 1 0 demo_passes).2.2 (by decide!)⟩

theorem resetPulses_append (a b : List Ev) :
    resetPulses (a ++ b) = resetPulses a + resetPulses b := by
  simp [resetPulses]

theorem resetPulses_WriteSoltOps (pin bit : Nat) : resetPulses (WriteSoltOps pin bit) = 0 := by
  unfold resetPulses WriteSoltOps
  split <;> simp [List.count_cons]

theorem resetPulses_ReadSlotOps (pin v : Nat) : resetPulses (ReadSlotOps pin v) = 0 := by
  simp [resetPulses, ReadSlotOps, List.count_cons]

theorem resetPulses_SendCommandOps (pin b : Nat) : resetPulses (SendCommandOps pin b) = 0 := by
  simp only [SendCommandOps, range8, List.flatMap_cons, List.flatMap_nil, resetPulses_append,
    List.cons_append, List.append_nil]
  simp only [resetPulses, List.count_cons, List.count_append, List.count_nil]
  simp only [← resetPulses.eq_1, resetPulses_WriteSoltOps]
  simp

theorem resetPulses_ReadByteOps (pin : Nat) (l : Nat → Bool) :
    resetPulses (ReadByteOps pin l) = 0 := by
  simp only [ReadByteOps, range8, List.flatMap_cons, List.flatMap_nil, resetPulses_append,
    List.cons_append, List.append_nil]
  simp only [resetPulses, List.count_cons, List.count_append, List.count_nil]
  simp only [← resetPulses.eq_1, resetPulses_ReadSlotOps]
  simp

theorem resetPulses_ShelveDataOps (pin : Nat) (l : Nat → Bool) :
    resetPulses (ShelveDataOps pin l) = 0 := by
  simp only [ShelveDataOps, range9, List.flatMap_cons, List.flatMap_nil, resetPulses_append,
    List.cons_append, List.append_nil]
  simp only [resetPulses, List.count_cons, List.count_append, List.count_nil]
  simp only [← resetPulses.eq_1, resetPulses_ReadByteOps]
  simp

theorem resetPulses_BusyWaitOps (pin k : Nat) : resetPulses (BusyWaitOps pin k) = 0 := by
  induction k with
  | zero => simp [BusyWaitOps, resetPulses_ReadSlotOps]
  | succ k ih =>
    simp only [BusyWaitOps, List.replicate_succ, List.flatten_cons, List.append_assoc,
      resetPulses_append, resetPulses_ReadSlotOps] at ih ⊢
    omega

theorem resetPulses_TestConnectOps (pin k : Nat) : resetPulses (TestConnectOps pin k) = 0 := by
  induction k with
  | zero => simp [TestConnectOps, resetPulses, List.count_cons]
  | succ k ih =>
    simp only [TestConnectOps, List.replicate_succ, List.flatten_cons, List.append_assoc,
      resetPulses_append] at ih ⊢
    simp only [resetPulses, List.count_cons, List.count_nil] at ih ⊢
    simp at ih ⊢
    omega

theorem resetPulses_HandshakeOps (pin k v : Nat) : resetPulses (HandshakeOps pin k v) = 1 := by
  rw [HandshakeOps, resetPulses_append, resetPulses_TestConnectOps]
  simp [resetPulses, ResetOps, List.count_cons]

theorem resetPulses_ClaimedSessionOps (pin k1 kw k3 : Nat) (l : Nat → Bool) :
    resetPulses (ClaimedSessionOps pin k1 kw k3 l) = 2 := by
  simp [ClaimedSessionOps, resetPulses_append, resetPulses_HandshakeOps,
    resetPulses_SendCommandOps, resetPulses_BusyWaitOps, resetPulses_ShelveDataOps]

theorem resetPulses_SessionOps (pin k1 k2 kw k3 : Nat) (l : Nat → Bool) :
    resetPulses (SessionOps pin k1 k2 kw k3 l) = 3 := by
  simp [SessionOps, resetPulses_append, resetPulses_HandshakeOps,
    resetPulses_SendCommandOps, resetPulses_BusyWaitOps, resetPulses_ShelveDataOps]

/-- C8 (as stated, refuted): on the healthy bus `demoLine` every step succeeds
and 25.0 is returned, yet the trace holds three reset pulses, not two, and it is
not the sequence handshake, `0xCC`, `0x44`, busy-wait, handshake, `0xCC`, `0xBE`,
nine bytes for any choice of the sampled levels. -/
theorem C8_claimed_sequence_refuted :
    GetTemperature 2 (initState demoLine)
      = some (25, sessionEnd (initState demoLine) 0 0 1 0) ∧
    resetPulses (sessionEnd (initState demoLine) 0 0 1 0).trace = 3 ∧
    ∀ k1 kw k3 l,
      (sessionEnd (initState demoLine) 0 0 1 0).trace ≠ ClaimedSessionOps 2 k1 kw k3 l := by
  have h3 : resetPulses (sessionEnd (initState demoLine) 0 0 1 0).trace = 3 := by
    show resetPulses ([] ++ SessionOps 2 0 0 1 0 _) = 3
    rw [List.nil_append, resetPulses_SessionOps]
  refine ⟨demo_run, h3, ?_⟩
  intro k1 kw k3 l heq
  rw [heq, resetPulses_ClaimedSessionOps] at h3
  exact absurd h3 (by decide)

/-- C8 (amended): on every run in which all handshakes succeed and the busy-wait
ends, the calls added to the trace are exactly: handshake, handshake,
Send-Command(`0xCC`), Send-Command(`0x44`), read-slots until the first high one,
handshake, Send-Command(`0xCC`), Send-Command(`0xBE`), nine Read-Byte calls
filling scratchpad bytes 0..8 in order; the result is then decided by the CRC
check.  The session holds three handshakes and the command bytes `0xCC`, `0x44`,
`0xCC`, `0xBE`. -/
theorem C8_session_sequence (fuel : Nat) (s : State) (k1 k2 kw k3 : Nat)
    (h : sessionPasses s.line s.pos fuel k1 k2 kw k3) :
    ∃ r s', GetTemperature fuel s = some (r, s') ∧
      s'.trace = s.trace ++
        (HandshakeOps s.pin k1 LOW ++ HandshakeOps s.pin k2 LOW ++
         SendCommandOps s.pin 0xCC ++ SendCommandOps s.pin 0x44 ++
         BusyWaitOps s.pin kw ++
         HandshakeOps s.pin k3 LOW ++
         SendCommandOps s.pin 0xCC ++ SendCommandOps s.pin 0xBE ++
         ShelveDataOps s.pin
           (fun j => s.line (s.pos + ((k1 + 2) + (k2 + 2) + (kw + 1) + (k3 + 2)) + j))) ∧
      (∀ i : Fin 9, s'.scratchpad i
        = byteOfLevels (fun j =>
            s.line (s.pos + ((k1 + 2) + (k2 + 2) + (kw + 1) + (k3 + 2)) + (8 * i.val + j)))) ∧
      s'.pos = s.pos + ((k1 + 2) + (k2 + 2) + (kw + 1) + (k3 + 2) + 72) ∧
      r = (if CheckSratchpadCRC s' = 0 then DEVICE_DISCONNECTED_C else CaculateTemperature s') ∧
      resetPulses (s'.trace.drop s.trace.length) = 3 := by
  obtain ⟨h1, h2, ⟨hfuel, hw⟩, h3⟩ := h
  refine ⟨_, _, GetTemperature_session fuel s k1 k2 kw k3 h1 h2 hw hfuel h3, rfl,
    fun i => rfl, rfl, rfl, ?_⟩
  show resetPulses ((s.trace ++ SessionOps s.pin k1 k2 kw k3 _).drop s.trace.length) = 3
  rw [List.drop_left, resetPulses_SessionOps]

/-- C8 (amended) on the healthy bus `demoLine`. -/
theorem C8_session_sequence_witness :
    ∃ r s', GetTemperature 2 (initState demoLine) = some (r, s') ∧
      s'.trace = (initState demoLine).trace ++
        (HandshakeOps 2 0 LOW ++ HandshakeOps 2 0 LOW ++
         SendCommandOps 2 0xCC ++ SendCommandOps 2 0x44 ++
         BusyWaitOps 2 1 ++
         HandshakeOps 2 0 LOW ++
         SendCommandOps 2 0xCC ++ SendCommandOps 2 0xBE ++
         ShelveDataOps 2 (fun j => demoLine (0 + ((0 + 2) + (0 + 2) + (1 + 1) + (0 + 2)) + j))) ∧
      (∀ i : Fin 9, s'.scratchpad i
        = byteOfLevels (fun j =>
            demoLine (0 + ((0 + 2) + (0 + 2) + (1 + 1) + (0 + 2)) + (8 * i.val + j)))) ∧
      s'.pos = 0 + ((0 + 2) + (0 + 2) + (1 + 1) + (0 + 2) + 72) ∧
      r = (if CheckSratchpadCRC s' = 0 then DEVICE_DISCONNECTED_C else CaculateTemperature s') ∧
      resetPulses (s'.trace.drop (initState demoLine).trace.length) = 3 :=
  C8_session_sequence 2 (initState demoLine) 0 0 1 0 demo_passes

/-! ## Decoder: exact domain, and the sentinel as a reading -/

theorem CaculateTemperature_nonneg (s : State) (h0 : s.scratchpad 0 < 256)
    (h1 : s.scratchpad 1 ≤ 0x7f) :
    CaculateTemperature s = ((s.scratchpad 1 * 256 + s.scratchpad 0 : Nat) : ℚ) / 16 := by
  have hm : ¬ (s.scratchpad 1 > 0x7f) := by omega
  have hlt : s.scratchpad 1 * 256 + s.scratchpad 0 < 65536 := by omega
  simp only [CaculateTemperature, hm, decide_False, Bool.false_eq_true, if_false,
    shiftLeft_or_eq _ _ h0, Nat.mod_eq_of_lt hlt]
  norm_num
  ring

theorem CaculateTemperature_neg (s : State) (h0 : s.scratchpad 0 < 256)
    (hm : 0x7f < s.scratchpad 1) (h1 : s.scratchpad 1 < 256) :
    CaculateTemperature s
      = -(((255 - s.scratchpad 1) * 256 + (256 - s.scratchpad 0) % 256 : Nat) : ℚ) / 16 := by
  have hm' : s.scratchpad 1 > 0x7f := hm
  have hl : (256 - s.scratchpad 0) % 256 < 256 := Nat.mod_lt _ (by decide)
  have hl2 : (255 - s.scratchpad 0 + 1) % 256 = (256 - s.scratchpad 0) % 256 := by
    congr 1; omega
  have hmm : (255 - s.scratchpad 1) % 256 = 255 - s.scratchpad 1 := by omega
  have hlt : (255 - s.scratchpad 1) * 256 + (256 - s.scratchpad 0) % 256 < 65536 := by omega
  simp only [CaculateTemperature, hm', decide_True, if_true, hmm, hl2]
  rw [shiftLeft_or_eq _ _ hl, Nat.mod_eq_of_lt hlt]
  norm_num
  ring

/-- C18: for scratchpad bytes (LSB, MSB), `CaculateTemperature` returns the
two's-complement value of the pair divided by 16 exactly when it is not the case
that MSB ≥ `0x80` and LSB = `0x00`; in that case it returns
-((255 - MSB) × 256)/16 where the two's-complement value is
-((256 - MSB) × 256)/16. -/
theorem C18_decoder_exact_domain (s : State) (h0 : s.scratchpad 0 < 256)
    (h1 : s.scratchpad 1 < 256) :
    (CaculateTemperature s = (signed16 (s.scratchpad 0) (s.scratchpad 1) : ℚ) / 16
      ↔ ¬ (s.scratchpad 1 ≥ 0x80 ∧ s.scratchpad 0 = 0x00)) ∧
    (s.scratchpad 1 ≥ 0x80 → s.scratchpad 0 = 0x00 →
      CaculateTemperature s = -(((255 - s.scratchpad 1) * 256 : Nat) : ℚ) / 16 ∧
      (signed16 (s.scratchpad 0) (s.scratchpad 1) : ℚ) / 16
        = -(((256 - s.scratchpad 1) * 256 : Nat) : ℚ) / 16) := by
  by_cases hm : s.scratchpad 1 ≤ 0x7f
  · have hs : signed16 (s.scratchpad 0) (s.scratchpad 1)
        = ((s.scratchpad 1 * 256 + s.scratchpad 0 : Nat) : Int) := by
      unfold signed16
      rw [if_neg (by omega)]
    refine ⟨?_, fun h => absurd h (by omega)⟩
    rw [CaculateTemperature_nonneg s h0 hm, hs]
    constructor
    · intro _ h; omega
    · intro _; rw [Int.cast_natCast]
  · have hm' : 0x7f < s.scratchpad 1 := by omega
    have hs : signed16 (s.scratchpad 0) (s.scratchpad 1)
        = ((s.scratchpad 1 * 256 + s.scratchpad 0 : Nat) : Int) - 65536 := by
      unfold signed16
      rw [if_pos (by omega)]
    have hq : ((signed16 (s.scratchpad 0) (s.scratchpad 1) : Int) : ℚ)
        = -(((256 - s.scratchpad 1) * 256 - s.scratchpad 0 : Nat) : ℚ) := by
      rw [hs]
      have : ((s.scratchpad 1 * 256 + s.scratchpad 0 : Nat) : Int) - 65536
          = -(((256 - s.scratchpad 1) * 256 - s.scratchpad 0 : Nat) : Int) := by omega
      rw [this]
      push_cast
      rfl
    rw [CaculateTemperature_neg s h0 hm' h1, hq]
    by_cases hz : s.scratchpad 0 = 0
    · have e1 : (255 - s.scratchpad 1) * 256 + (256 - s.scratchpad 0) % 256
          = (255 - s.scratchpad 1) * 256 := by rw [hz]; simp
      have e2 : (256 - s.scratchpad 1) * 256 - s.scratchpad 0
          = (255 - s.scratchpad 1) * 256 + 256 := by omega
      rw [e1, e2]
      refine ⟨?_, fun _ _ => ⟨rfl, ?_⟩⟩
      · constructor
        · intro h
          exfalso
          push_cast at h
          linarith
        · intro h; exact absurd ⟨by omega, hz⟩ h
      · have e3 : (256 - s.scratchpad 1) * 256 = (255 - s.scratchpad 1) * 256 + 256 := by omega
        rw [e3]
    · have e1 : (255 - s.scratchpad 1) * 256 + (256 - s.scratchpad 0) % 256
          = (256 - s.scratchpad 1) * 256 - s.scratchpad 0 := by omega
      rw [e1]
      exact ⟨⟨fun _ h => hz h.2, fun _ => rfl⟩, fun _ h => absurd h hz⟩

/-- C18 on raw `0xFF00` (-16.0 °C), which decodes to 0, and on raw `0xFE6F`,
which decodes to its two's-complement value. -/
theorem C18_decoder_exact_domain_witness :
    (CaculateTemperature (padState [0x00, 0xFF]) = -(((255 - 0xFF) * 256 : Nat) : ℚ) / 16 ∧
      (signed16 0x00 0xFF : ℚ) / 16 = -(((256 - 0xFF) * 256 : Nat) : ℚ) / 16) ∧
    CaculateTemperature (padState [0x6F, 0xFE]) = (signed16 0x6F 0xFE : ℚ) / 16 :=
  ⟨(C18_decoder_exact_domain (padState [0x00, 0xFF]) (by decide) (by decide)).2
      (by decide) rfl,
   (C18_decoder_exact_domain (padState [0x6F, 0xFE]) (by decide) (by decide)).1.mpr
      (by decide)⟩

theorem sentinel_passes : sessionPasses sentinelLine 0 2 0 0 1 0 := by
  unfold sessionPasses presentAt firstHighAt
  decide

theorem sentinel_crc : CheckSratchpadCRC (sessionEnd (initState sentinelLine) 0 0 1 0) = 1 := by
  decide!

theorem sentinel_decode :
    CaculateTemperature (sessionEnd (initState sentinelLine) 0 0 1 0) = -127 := by
  have h0 : (sessionEnd (initState sentinelLine) 0 0 1 0).scratchpad 0 = 0x10 := by decide!
  have h1 : (sessionEnd (initState sentinelLine) 0 0 1 0).scratchpad 1 = 0xF8 := by decide!
  simp only [CaculateTemperature, h0, h1]
  norm_num [shiftLeft_or_eq]

/-- C19: the sentinel is also a reading.  On the healthy bus `sentinelLine`
every handshake succeeds, the nine bytes read (`0x10`, `0xF8`, …, CRC `0x29`)
pass `CheckSratchpadCRC`, and `GetTemperature` returns the decoded value -127.0,
which equals `DEVICE_DISCONNECTED_C`. -/
theorem C19_sentinel_is_a_reading :
    sessionPasses sentinelLine 0 2 0 0 1 0 ∧
    GetTemperature 2 (initState sentinelLine)
      = some (-127, sessionEnd (initState sentinelLine) 0 0 1 0) ∧
    allBytes (sessionEnd (initState sentinelLine) 0 0 1 0)
      = [0x10, 0xF8, 0x4B, 0x46, 0x7F, 0xFF, 0x0C, 0x10, 0x29] ∧
    CheckSratchpadCRC (sessionEnd (initState sentinelLine) 0 0 1 0) = 1 ∧
    CaculateTemperature (sessionEnd (initState sentinelLine) 0 0 1 0) = -127 ∧
    DEVICE_DISCONNECTED_C = -127 := by
  refine ⟨sentinel_passes, ?_, by decide!, sentinel_crc, sentinel_decode, rfl⟩
  have h := GetTemperature_session 2 (initState sentinelLine) 0 0 1 0
    sentinel_passes.1 sentinel_passes.2.1 sentinel_passes.2.2.1.2 sentinel_passes.2.2.1.1
    sentinel_passes.2.2.2
  rw [h, sentinel_crc, sentinel_decode]
  simp

/-! ## Slots: encoding and interrupt mask -/

/-- C15: `WriteSolt(bit)` drives the line low, holds it low for 10 µs (bit
non-zero) or 65 µs (bit zero), releases the line and then waits 60 µs or 5 µs.
The delays of a slot add up to 70 µs for either bit, the low time is below the
15 µs sampling point for a 1 and above it for a 0, and the release precedes the
final delay. -/
theorem C15_write_slot_encoding (order_bit : Nat) (s : State) :
    (order_bit ≠ 0 →
      WriteSolt order_bit s
        = advance s 0
            [Ev.noInterrupts, Ev.pinMode s.pin PinMode.OUTPUT, Ev.digitalWrite s.pin LOW,
             Ev.delayMicroseconds 10, Ev.pinMode s.pin PinMode.INPUT, Ev.interrupts,
             Ev.delayMicroseconds 60]) ∧
    (order_bit = 0 →
      WriteSolt order_bit s
        = advance s 0
            [Ev.noInterrupts, Ev.pinMode s.pin PinMode.OUTPUT, Ev.digitalWrite s.pin LOW,
             Ev.delayMicroseconds 65, Ev.pinMode s.pin PinMode.INPUT, Ev.interrupts,
             Ev.delayMicroseconds 5]) ∧
    lineOps (WriteSoltOps s.pin order_bit)
      = [Ev.pinMode s.pin PinMode.OUTPUT, Ev.digitalWrite s.pin LOW,
         Ev.delayMicroseconds (if order_bit ≠ 0 then 10 else 65),
         Ev.pinMode s.pin PinMode.INPUT,
         Ev.delayMicroseconds (if order_bit ≠ 0 then 60 else 5)] ∧
    totalDelay ((WriteSolt order_bit s).trace.drop s.trace.length) = 70 ∧
    lowTime ((WriteSolt order_bit s).trace.drop s.trace.length)
      = (if order_bit ≠ 0 then 10 else 65) ∧
    (order_bit ≠ 0 → lowTime ((WriteSolt order_bit s).trace.drop s.trace.length) < 15) ∧
    (order_bit = 0 → 15 < lowTime ((WriteSolt order_bit s).trace.drop s.trace.length)) := by
  have hdrop : (WriteSolt order_bit s).trace.drop s.trace.length = WriteSoltOps s.pin order_bit := by
    rw [WriteSolt_eq, advance_trace, List.drop_left]
  rw [hdrop]
  by_cases h : order_bit = 0
  · simp [WriteSolt_eq, WriteSoltOps, h, lineOps, List.filter, totalDelay, delayOf, lowTime,
      lowTimeAux, LOW]
  · simp [WriteSolt_eq, WriteSoltOps, h, lineOps, List.filter, totalDelay, delayOf, lowTime,
      lowTimeAux, LOW]

/-- C15 on pin 2: a 1 is a 10 µs low pulse and a 60 µs tail, a 0 is a 65 µs low
pulse and a 5 µs tail. -/
theorem C15_write_slot_encoding_witness :
    WriteSolt 1 (initState (lineOf []))
      = advance (initState (lineOf [])) 0
          [Ev.noInterrupts, Ev.pinMode 2 PinMode.OUTPUT, Ev.digitalWrite 2 LOW,
           Ev.delayMicroseconds 10, Ev.pinMode 2 PinMode.INPUT, Ev.interrupts,
           Ev.delayMicroseconds 60] ∧
    WriteSolt 0 (initState (lineOf []))
      = advance (initState (lineOf [])) 0
          [Ev.noInterrupts, Ev.pinMode 2 PinMode.OUTPUT, Ev.digitalWrite 2 LOW,
           Ev.delayMicroseconds 65, Ev.pinMode 2 PinMode.INPUT, Ev.interrupts,
           Ev.delayMicroseconds 5] :=
  ⟨(C15_write_slot_encoding 1 (initState (lineOf []))).1 (by decide),
   (C15_write_slot_encoding 0 (initState (lineOf []))).2.1 rfl⟩

/-- C13 (as stated, refuted): the final delay of a write-slot (60 µs) and of a
read-slot (48 µs) is executed with interrupts enabled, also for the first slot
of a `ReadByte`, whose guard is thereby lifted before the second slot begins. -/
theorem C13_final_delay_unmasked :
    (Ev.delayMicroseconds 60, true)
      ∈ maskAt true ((WriteSolt 1 (initState (lineOf []))).trace) ∧
    (Ev.delayMicroseconds 5, true)
      ∈ maskAt true ((WriteSolt 0 (initState (lineOf []))).trace) ∧
    (Ev.delayMicroseconds 48, true)
      ∈ maskAt true ((ReadSlot (initState (lineOf []))).2.trace) ∧
    (maskAt true ((ReadByte (initState (lineOf []))).2.trace)).get? 11
      = some (Ev.delayMicroseconds 48, true) := by
  decide!

/-- C13 (amended): in every write-slot (both bit values) and every read-slot,
interrupts are disabled by the first call of the slot and stay disabled while
the line is driven low and until it has been released (write-slot) or released
and sampled (read-slot); every pin operation and delay up to that point runs
with interrupts disabled.  Interrupts are enabled again before the slot's final
delay (60 µs / 5 µs / 48 µs), which runs with interrupts enabled. -/
theorem C13_slot_mask (s : State) (irq0 : Bool) :
    (∀ order_bit,
      (WriteSolt order_bit s).trace = s.trace ++ WriteSoltOps s.pin order_bit ∧
      maskAt irq0 (WriteSoltOps s.pin order_bit)
        = [(Ev.noInterrupts, irq0),
           (Ev.pinMode s.pin PinMode.OUTPUT, false),
           (Ev.digitalWrite s.pin LOW, false),
           (Ev.delayMicroseconds (if order_bit ≠ 0 then 10 else 65), false),
           (Ev.pinMode s.pin PinMode.INPUT, false),
           (Ev.interrupts, false),
           (Ev.delayMicroseconds (if order_bit ≠ 0 then 60 else 5), true)]) ∧
    (ReadSlot s).2.trace = s.trace ++ ReadSlotOps s.pin (levelOf (s.line s.pos)) ∧
    maskAt irq0 (ReadSlotOps s.pin (levelOf (s.line s.pos)))
      = [(Ev.noInterrupts, irq0),
         (Ev.delayMicroseconds 1, false),
         (Ev.pinMode s.pin PinMode.OUTPUT, false),
         (Ev.digitalWrite s.pin LOW, false),
         (Ev.delayMicroseconds 1, false),
         (Ev.delayMicroseconds 2, false),
         (Ev.pinMode s.pin PinMode.INPUT, false),
         (Ev.delayMicroseconds 9, false),
         (Ev.digitalRead s.pin (levelOf (s.line s.pos)), false),
         (Ev.interrupts, false),
         (Ev.delayMicroseconds 48, true)] := by
  refine ⟨fun order_bit => ⟨by rw [WriteSolt_eq, advance_trace], ?_⟩,
    by rw [ReadSlot_eq, advance_trace], by simp [ReadSlotOps, maskAt]⟩
  by_cases h : order_bit = 0 <;> simp [WriteSoltOps, maskAt, h]

/-! ## Frame: what each operation leaves alone -/

theorem TestConnect_total (s : State) :
    (∃ k, k < 60 ∧ firstHighAt s.line s.pos k ∧
      TestConnect s = some (1, advance s (k + 1) (TestConnectOps s.pin k))) ∨
    ((∀ j, j < 60 → s.line (s.pos + j) = false) ∧
      TestConnect s = some (0, advance s 60 (TestConnectFailOps s.pin))) := by
  rcases firstHighAt_or_allLow s.line s.pos 60 with ⟨k, hk, hf⟩ | h
  · exact Or.inl ⟨k, hk, hf, TestConnect_ok s k hk hf⟩
  · exact Or.inr ⟨h, TestConnect_fail s h⟩

theorem isConnected_total (s : State) :
    ∃ c n ops, isConnected s = some (c, advance s n ops) := by
  rcases firstHighAt_or_allLow s.line s.pos 60 with ⟨k, hk, hf⟩ | h
  · exact ⟨_, _, _, isConnected_ok s k hk hf⟩
  · exact ⟨_, _, _, isConnected_idle_fail s h⟩

theorem busyWait_some (fuel : Nat) (s s1 : State) (h : busyWait fuel s = some s1) :
    ∃ k, k < fuel ∧ firstHighAt s.line s.pos k ∧ s1 = advance s (k + 1) (BusyWaitOps s.pin k) := by
  rcases firstHighAt_or_allLow s.line s.pos fuel with ⟨k, hk, hf⟩ | hl
  · refine ⟨k, hk, hf, ?_⟩
    rw [busyWait_eq k fuel s hk hf] at h
    exact (Option.some.inj h).symm
  · rw [busyWait_allLow fuel s hl] at h
    exact absurd h (by simp)

theorem isFoundDataWarehouse_frame (fuel : Nat) (s : State) (f : Nat) (s1 : State)
    (h : isFoundDataWarehouse fuel s = some (f, s1)) :
    (∃ n ops, s1 = advance s n ops) ∨
    (∃ n ops, s1 = ShelveData (advance s n ops)) := by
  obtain ⟨c, n, ops, e1⟩ := isConnected_total s
  simp only [isFoundDataWarehouse, e1] at h
  by_cases hc : c = 0
  · simp only [hc, if_true, Option.some.injEq, Prod.mk.injEq] at h
    exact Or.inl ⟨n, ops, h.2.symm⟩
  · simp only [hc, if_false, SendCommand_eq, advance_advance, advance_pin] at h
    cases hb : busyWait fuel (advance s (n + 0 + 0)
        (ops ++ SendCommandOps s.pin Skip_ROM ++ SendCommandOps s.pin Convert_T)) with
    | none => rw [hb] at h; exact absurd h (by simp)
    | some s2 =>
      obtain ⟨k, _, _, e2⟩ := busyWait_some _ _ _ hb
      rw [hb] at h
      simp only [advance_advance, advance_pin] at e2
      subst e2
      obtain ⟨c3, n3, ops3, e3⟩ := isConnected_total (advance s (n + 0 + 0 + (k + 1))
        (ops ++ SendCommandOps s.pin Skip_ROM ++ SendCommandOps s.pin Convert_T ++
          BusyWaitOps s.pin k))
      simp only [e3, advance_advance, advance_pin] at h
      by_cases hc3 : c3 = 0
      · simp only [hc3, if_true, Option.some.injEq, Prod.mk.injEq] at h
        exact Or.inl ⟨_, _, h.2.symm⟩
      · simp only [hc3, if_false, Option.some.injEq, Prod.mk.injEq] at h
        exact Or.inr ⟨_, _, h.2.symm⟩

theorem GetTemperature_frame (fuel : Nat) (s : State) (r : ℚ) (s1 : State)
    (h : GetTemperature fuel s = some (r, s1)) :
    (∃ n ops, s1 = advance s n ops) ∨
    (∃ n ops, s1 = ShelveData (advance s n ops)) := by
  obtain ⟨c, n, ops, e1⟩ := isConnected_total s
  simp only [GetTemperature, e1] at h
  by_cases hc : c = 0
  · simp only [hc, if_true, Option.some.injEq, Prod.mk.injEq] at h
    exact Or.inl ⟨n, ops, h.2.symm⟩
  · simp only [hc, if_false] at h
    cases hf : isFoundDataWarehouse fuel (advance s n ops) with
    | none => rw [hf] at h; exact absurd h (by simp)
    | some p =>
      obtain ⟨f, s2⟩ := p
      rw [hf] at h
      have hs : s1 = s2 := by
        by_cases hz : f = 0
        · simp only [hz, if_true, Option.some.injEq, Prod.mk.injEq] at h; exact h.2.symm
        · simp only [hz, if_false, Option.some.injEq, Prod.mk.injEq] at h; exact h.2.symm
      subst hs
      rcases isFoundDataWarehouse_frame fuel _ f s1 hf with ⟨m, o, e⟩ | ⟨m, o, e⟩
      · exact Or.inl ⟨n + m, ops ++ o, by rw [e, advance_advance]⟩
      · exact Or.inr ⟨n + m, ops ++ o, by rw [e, advance_advance]⟩

theorem ShelveData_irq (s : State) : (ShelveData s).irq = true := by
  rw [ShelveData_eq]; rfl

theorem ShelveData_pin (s : State) : (ShelveData s).pin = s.pin := by
  rw [ShelveData_eq]; rfl

/-- C14: interrupts are enabled whenever one of the driver's operations returns,
whatever the mask was at entry and on every path: `ReadSlot`, `WriteSolt`,
`SendCommand`, `ReadByte`, `ShelveData` always; `TestConnect` and `isConnected`,
which always return, with either result; `GetTemperature` whenever it returns,
with the sentinel or with a reading. -/
theorem C14_interrupts_reenabled (s : State) :
    (ReadSlot s).2.irq = true ∧
    (∀ order_bit, (WriteSolt order_bit s).irq = true) ∧
    (∀ instruction, (SendCommand instruction s).irq = true) ∧
    (ReadByte s).2.irq = true ∧
    (ShelveData s).irq = true ∧
    (∃ r s', TestConnect s = some (r, s') ∧ s'.irq = true) ∧
    (∃ r s', isConnected s = some (r, s') ∧ s'.irq = true) ∧
    (∀ fuel r s', GetTemperature fuel s = some (r, s') → s'.irq = true) := by
  refine ⟨by rw [ReadSlot_eq]; rfl, fun b => by rw [WriteSolt_eq, advance_irq],
    fun b => by rw [SendCommand_eq, advance_irq], by rw [ReadByte_eq]; rfl, ShelveData_irq s,
    ?_, ?_, ?_⟩
  · rcases TestConnect_total s with ⟨k, _, _, e⟩ | ⟨_, e⟩
    · exact ⟨_, _, e, rfl⟩
    · exact ⟨_, _, e, rfl⟩
  · obtain ⟨c, n, ops, e⟩ := isConnected_total s
    exact ⟨_, _, e, rfl⟩
  · intro fuel r s' h
    rcases GetTemperature_frame fuel s r s' h with ⟨n, ops, e⟩ | ⟨n, ops, e⟩
    · rw [e, advance_irq]
    · rw [e, ShelveData_irq]

/-- C14 on two runs: a dead line, where the idle check fails, and the healthy
bus; each returns with interrupts enabled. -/
theorem C14_interrupts_reenabled_witness :
    (∀ r s', GetTemperature 2 (initState (lineOf (List.replicate 60 false))) = some (r, s') →
      s'.irq = true) ∧
    (sessionEnd (initState demoLine) 0 0 1 0).irq = true :=
  ⟨(C14_interrupts_reenabled (initState (lineOf (List.replicate 60 false)))).2.2.2.2.2.2.2 2,
   (C14_interrupts_reenabled (initState demoLine)).2.2.2.2.2.2.2 2 25 _ demo_run⟩

/-! ## Scratchpad ownership -/

theorem isConnected_absent_frame (s : State) (h : absentAt s.line s.pos) :
    ∃ n ops, isConnected s = some (0, advance s n ops) := by
  rcases h with h | ⟨k, hk, hf, hp⟩
  · exact ⟨_, _, isConnected_idle_fail s h⟩
  · refine ⟨k + 2, HandshakeOps s.pin k (levelOf true), ?_⟩
    rw [isConnected_ok s k hk hf, hp]
    simp

theorem GetTemperature_aborts_frame (fuel : Nat) (s : State)
    (h : sessionAborts s.line s.pos fuel) :
    ∃ n ops, GetTemperature fuel s = some (DEVICE_DISCONNECTED_C, advance s n ops) := by
  rcases h with h | ⟨k1, h1, h⟩ | ⟨k1, k2, kw, h1, h2, ⟨hfuel, hw⟩, h⟩
  · obtain ⟨n, ops, e⟩ := isConnected_absent_frame s h
    exact ⟨n, ops, by simp [GetTemperature, e]⟩
  · have e1 := isConnected_present s k1 h1
    obtain ⟨n, ops, e2⟩ := isConnected_absent_frame
      (advance s (k1 + 2) (HandshakeOps s.pin k1 LOW)) (by simpa using h)
    rw [advance_advance] at e2
    have key : ∀ X : State,
        isConnected (advance s (k1 + 2) (HandshakeOps s.pin k1 LOW)) = some (0, X) →
        GetTemperature fuel s = some (DEVICE_DISCONNECTED_C, X) := by
      intro X e
      simp [GetTemperature, isFoundDataWarehouse, e1, e]
    exact ⟨_, _, key _ e2⟩
  · have e1 := isConnected_present s k1 h1
    have e2 := isConnected_present (advance s (k1 + 2) (HandshakeOps s.pin k1 LOW)) k2
      (by simpa using h2)
    have e3 := busyWait_eq kw fuel
      (advance s ((k1 + 2) + (k2 + 2)) (HandshakeOps s.pin k1 LOW ++ HandshakeOps s.pin k2 LOW ++
        SendCommandOps s.pin Skip_ROM ++ SendCommandOps s.pin Convert_T)) hfuel
      (by simpa [Nat.add_assoc] using hw)
    obtain ⟨n, ops, e4⟩ := isConnected_absent_frame
      (advance s ((k1 + 2) + (k2 + 2) + (kw + 1)) (HandshakeOps s.pin k1 LOW ++
        HandshakeOps s.pin k2 LOW ++ SendCommandOps s.pin Skip_ROM ++
        SendCommandOps s.pin Convert_T ++ BusyWaitOps s.pin kw))
      (by simpa [Nat.add_assoc] using h)
    simp only [advance_advance, advance_pin, List.append_assoc, Nat.add_zero] at e2 e3 e4
    have key : ∀ X : State,
        isConnected (advance s ((k1 + 2) + (k2 + 2) + (kw + 1)) (HandshakeOps s.pin k1 LOW ++
          (HandshakeOps s.pin k2 LOW ++ (SendCommandOps s.pin Skip_ROM ++
          (SendCommandOps s.pin Convert_T ++ BusyWaitOps s.pin kw))))) = some (0, X) →
        GetTemperature fuel s = some (DEVICE_DISCONNECTED_C, X) := by
      intro X e
      simp only [GetTemperature, isFoundDataWarehouse, e1, e2, SendCommand_eq, advance_advance,
        advance_pin, List.append_assoc, Nat.add_zero, e3, e]
      simp
    exact ⟨_, _, key _ e4⟩

/-- C12: the scratchpad is never torn.  A session that fails in a handshake
leaves all nine bytes and the pin as they were; a session that passes its
handshakes leaves exactly the nine bytes just read; a terminating session does
one or the other.  No operation other than `ShelveData` touches the scratchpad,
and `ShelveData` runs its step for positions 0, 1, …, 8 in that order, each step
writing its own position only. -/
theorem C12_scratchpad_never_torn (fuel : Nat) (s : State) (r : ℚ) (s' : State)
    (h : GetTemperature fuel s = some (r, s')) :
    s'.pin = s.pin ∧
    (sessionAborts s.line s.pos fuel → s'.scratchpad = s.scratchpad) ∧
    (∀ k1 k2 kw k3, sessionPasses s.line s.pos fuel k1 k2 kw k3 →
      ∀ i : Fin 9, s'.scratchpad i
        = byteOfLevels (fun j =>
            s.line (s.pos + ((k1 + 2) + (k2 + 2) + (kw + 1) + (k3 + 2)) + (8 * i.val + j)))) ∧
    (s'.scratchpad = s.scratchpad ∨
      ∃ p, ∀ i : Fin 9, s'.scratchpad i = byteOfLevels (fun j => s.line (p + (8 * i.val + j)))) ∧
    ((ReadSlot s).2.scratchpad = s.scratchpad ∧
     (∀ order_bit, (WriteSolt order_bit s).scratchpad = s.scratchpad) ∧
     (∀ instruction, (SendCommand instruction s).scratchpad = s.scratchpad) ∧
     (ReadByte s).2.scratchpad = s.scratchpad ∧
     (∀ c s1, isConnected s = some (c, s1) → s1.scratchpad = s.scratchpad) ∧
     (∀ f s1, busyWait f s = some s1 → s1.scratchpad = s.scratchpad)) ∧
    (ShelveData s = [0, 1, 2, 3, 4, 5, 6, 7, 8].foldl ShelveDataStep s ∧
     ∀ (t : State) (i : Nat), (ShelveDataStep t i).scratchpad
        = Function.update t.scratchpad (Fin.ofNat i)
            (byteOfLevels (fun j => t.line (t.pos + j)))) := by
  refine ⟨?_, ?_, ?_, ?_, ⟨?_, ?_, ?_, ?_, ?_, ?_⟩, ?_, ?_⟩
  · rcases GetTemperature_frame fuel s r s' h with ⟨n, ops, e⟩ | ⟨n, ops, e⟩
    · rw [e, advance_pin]
    · rw [e, ShelveData_pin, advance_pin]
  · intro ha
    obtain ⟨n, ops, e⟩ := GetTemperature_aborts_frame fuel s ha
    rw [e] at h
    simp only [Option.some.injEq, Prod.mk.injEq] at h
    rw [← h.2, advance_scratchpad]
  · intro k1 k2 kw k3 ⟨h1, h2, ⟨hfuel, hw⟩, h3⟩ i
    rw [GetTemperature_session fuel s k1 k2 kw k3 h1 h2 hw hfuel h3] at h
    simp only [Option.some.injEq, Prod.mk.injEq] at h
    rw [← h.2]
    rfl
  · rcases GetTemperature_frame fuel s r s' h with ⟨n, ops, e⟩ | ⟨n, ops, e⟩
    · exact Or.inl (by rw [e, advance_scratchpad])
    · refine Or.inr ⟨s.pos + n, fun i => ?_⟩
      rw [e, ShelveData_eq]
      rfl
  · rw [ReadSlot_eq]; rfl
  · intro b; rw [WriteSolt_eq, advance_scratchpad]
  · intro b; rw [SendCommand_eq, advance_scratchpad]
  · rw [ReadByte_eq]; rfl
  · intro c s1 e
    obtain ⟨c', n, ops, e'⟩ := isConnected_total s
    rw [e'] at e
    simp only [Option.some.injEq, Prod.mk.injEq] at e
    rw [← e.2, advance_scratchpad]
  · intro f s1 e
    obtain ⟨k, _, _, e'⟩ := busyWait_some f s s1 e
    rw [e', advance_scratchpad]
  · rw [ShelveData, range9]
  · intro t i
    rw [ShelveDataStep_eq]

/-- C12 on a line without presence pulse, starting from a scratchpad that holds
an earlier reading: the nine bytes are still there after the failed session. -/
theorem C12_scratchpad_never_torn_witness :
    (advance (padState demoScratchpad) 2 (HandshakeOps 2 0 HIGH)).scratchpad
      = (padState demoScratchpad).scratchpad :=
  (C12_scratchpad_never_torn 0 (padState demoScratchpad) DEVICE_DISCONNECTED_C
    (advance (padState demoScratchpad) 2 (HandshakeOps 2 0 HIGH))
    (by
      have h := isConnected_ok (padState demoScratchpad) 0 (by decide)
        ⟨fun j hj => absurd hj (Nat.not_lt_zero j), rfl⟩
      simp only [GetTemperature, h]
      rfl)).2.1
    (Or.inl (Or.inr ⟨0, by decide, ⟨fun j hj => absurd hj (Nat.not_lt_zero j), rfl⟩, rfl⟩))

/-! ## Determinism -/

theorem CheckSratchpadCRC_congr (s t : State) (h : s.scratchpad = t.scratchpad) :
    CheckSratchpadCRC s = CheckSratchpadCRC t := by
  simp only [CheckSratchpadCRC, h]

theorem CaculateTemperature_congr (s t : State) (h : s.scratchpad = t.scratchpad) :
    CaculateTemperature s = CaculateTemperature t := by
  simp only [CaculateTemperature, h]

theorem sessionEnd_scratchpad_congr (s t : State) (k1 k2 kw k3 : Nat)
    (hline : s.line = t.line) (hpos : s.pos = t.pos) :
    (sessionEnd s k1 k2 kw k3).scratchpad = (sessionEnd t k1 k2 kw k3).scratchpad := by
  simp only [sessionEnd, hline, hpos]

theorem GetTemperature_value_congr (fuel : Nat) (s t : State)
    (hline : s.line = t.line) (hpos : s.pos = t.pos) :
    (GetTemperature fuel s).map Prod.fst = (GetTemperature fuel t).map Prod.fst := by
  rcases aborts_or_passes_or_hangs s.line s.pos fuel with
    ha | ⟨k1, k2, kw, k3, h1, h2, ⟨hfuel, hw⟩, h3⟩ | ⟨k1, k2, h1, h2, hw⟩
  · obtain ⟨s1, e1⟩ := GetTemperature_aborts fuel s ha
    obtain ⟨t1, e2⟩ := GetTemperature_aborts fuel t (by rw [← hline, ← hpos]; exact ha)
    rw [e1, e2]
    rfl
  · rw [GetTemperature_session fuel s k1 k2 kw k3 h1 h2 hw hfuel h3,
      GetTemperature_session fuel t k1 k2 kw k3 (by rw [← hline, ← hpos]; exact h1)
        (by rw [← hline, ← hpos]; exact h2) (by rw [← hline, ← hpos]; exact hw) hfuel
        (by rw [← hline, ← hpos]; exact h3)]
    have hsp := sessionEnd_scratchpad_congr s t k1 k2 kw k3 hline hpos
    simp only [Option.map_some', CheckSratchpadCRC_congr _ _ hsp,
      CaculateTemperature_congr _ _ hsp]
  · rw [GetTemperature_hangs fuel s k1 k2 h1 h2 hw,
      GetTemperature_hangs fuel t k1 k2 (by rw [← hline, ← hpos]; exact h1)
        (by rw [← hline, ← hpos]; exact h2) (by rw [← hline, ← hpos]; exact hw)]

/-- C11: deterministic re-read.  Two runs that start at the same point of the
same line return the same value (or both fail to return), whatever their
scratchpads held before; when the handshakes pass, so that the scratchpad is
read, they leave the same scratchpad.  The value of a session that passed its
handshakes is a function of the nine bytes it read, so two consecutive such
sessions that read the same bytes agree on the CRC verdict and on the value. -/
theorem C11_deterministic_reread (fuel : Nat) (s1 s2 : State)
    (hline : s1.line = s2.line) (hpos : s1.pos = s2.pos) :
    (GetTemperature fuel s1).map Prod.fst = (GetTemperature fuel s2).map Prod.fst ∧
    (∀ r1 r2 s1' s2', GetTemperature fuel s1 = some (r1, s1') →
      GetTemperature fuel s2 = some (r2, s2') →
      r1 = r2 ∧
      ((∃ k1 k2 kw k3, sessionPasses s1.line s1.pos fuel k1 k2 kw k3) →
        s1'.scratchpad = s2'.scratchpad)) ∧
    (∀ fuel' r r' s' s'', GetTemperature fuel s1 = some (r, s') →
      GetTemperature fuel' s' = some (r', s'') →
      (∃ k1 k2 kw k3, sessionPasses s1.line s1.pos fuel k1 k2 kw k3) →
      (∃ k1 k2 kw k3, sessionPasses s'.line s'.pos fuel' k1 k2 kw k3) →
      s''.scratchpad = s'.scratchpad →
      CheckSratchpadCRC s'' = CheckSratchpadCRC s' ∧ r' = r) := by
  have hval := GetTemperature_value_congr fuel s1 s2 hline hpos
  refine ⟨hval, ?_, ?_⟩
  · intro r1 r2 s1' s2' e1 e2
    refine ⟨?_, ?_⟩
    · rw [e1, e2] at hval
      simpa using hval
    · rintro ⟨k1, k2, kw, k3, h1, h2, ⟨hfuel, hw⟩, h3⟩
      rw [GetTemperature_session fuel s1 k1 k2 kw k3 h1 h2 hw hfuel h3] at e1
      rw [GetTemperature_session fuel s2 k1 k2 kw k3 (by rw [← hline, ← hpos]; exact h1)
        (by rw [← hline, ← hpos]; exact h2) (by rw [← hline, ← hpos]; exact hw) hfuel
        (by rw [← hline, ← hpos]; exact h3)] at e2
      simp only [Option.some.injEq, Prod.mk.injEq] at e1 e2
      rw [← e1.2, ← e2.2]
      exact sessionEnd_scratchpad_congr s1 s2 k1 k2 kw k3 hline hpos
  · rintro fuel' r r' s' s'' e1 e2 ⟨k1, k2, kw, k3, h1, h2, ⟨hfuel, hw⟩, h3⟩
      ⟨j1, j2, jw, j3, g1, g2, ⟨gfuel, gw⟩, g3⟩ hsp
    rw [GetTemperature_session fuel s1 k1 k2 kw k3 h1 h2 hw hfuel h3] at e1
    rw [GetTemperature_session fuel' s' j1 j2 jw j3 g1 g2 gw gfuel g3] at e2
    simp only [Option.some.injEq, Prod.mk.injEq] at e1 e2
    obtain ⟨hr, hs⟩ := e1
    obtain ⟨hr', hs'⟩ := e2
    rw [hs] at hr
    rw [hs'] at hr'
    refine ⟨CheckSratchpadCRC_congr _ _ hsp, ?_⟩
    rw [← hr, ← hr', CheckSratchpadCRC_congr _ _ hsp, CaculateTemperature_congr _ _ hsp]

/-- C11 on the healthy bus: a driver whose scratchpad holds zeros and one whose
scratchpad holds an earlier, different image return the same value. -/
theorem C11_deterministic_reread_witness :
    (GetTemperature 2 (initState demoLine)).map Prod.fst
      = (GetTemperature 2
          { initState demoLine with scratchpad := fun i => sentinelScratchpad.getD i.val 0 }).map
          Prod.fst ∧
    (GetTemperature 2 (initState demoLine)).map Prod.fst = some 25 :=
  ⟨(C11_deterministic_reread 2 (initState demoLine)
      { initState demoLine with scratchpad := fun i => sentinelScratchpad.getD i.val 0 }
      rfl rfl).1,
   by rw [demo_run]; rfl⟩

/-! ## Bounded and unbounded waits -/

theorem count_delay4_TestConnectOps (pin k : Nat) :
    (TestConnectOps pin k).count (Ev.delayMicroseconds 4) = k := by
  induction k with
  | zero => simp [TestConnectOps, List.count_cons]
  | succ k ih =>
    simp only [TestConnectOps, List.replicate_succ, List.flatten_cons, List.append_assoc,
      List.count_append, List.count_cons, List.count_nil] at ih ⊢
    simp at ih ⊢
    omega

theorem count_delay4_TestConnectFailOps (pin : Nat) :
    (TestConnectFailOps pin).count (Ev.delayMicroseconds 4) = 59 := by
  have h := count_delay4_TestConnectOps pin 59
  have a : [Ev.digitalRead pin LOW].count (Ev.delayMicroseconds 4) = 0 := by
    simp [List.count_cons]
  have b : [Ev.digitalRead pin HIGH].count (Ev.delayMicroseconds 4) = 0 := by
    simp [List.count_cons]
  unfold TestConnectOps at h
  unfold TestConnectFailOps
  rw [List.count_append, b] at h
  rw [List.count_append, a]
  exact h

theorem TestConnectFailOps_mem (pin : Nat) (e : Ev) (h : e ∈ TestConnectFailOps pin) :
    e = Ev.noInterrupts ∨ e = Ev.pinMode pin PinMode.INPUT ∨ e = Ev.interrupts ∨
    e = Ev.digitalRead pin LOW ∨ e = Ev.delayMicroseconds 4 := by
  simp only [TestConnectFailOps, List.mem_append, List.mem_flatten, List.mem_replicate,
    List.mem_cons, List.mem_singleton, List.not_mem_nil, or_false] at h
  rcases h with ((h | h | h) | ⟨l, ⟨_, rfl⟩, hl⟩) | h
  · exact Or.inl h
  · exact Or.inr (Or.inl h)
  · exact Or.inr (Or.inr (Or.inl h))
  · simp only [List.mem_cons, List.mem_singleton, List.not_mem_nil, or_false] at hl
    rcases hl with hl | hl
    · exact Or.inr (Or.inr (Or.inr (Or.inl hl)))
    · exact Or.inr (Or.inr (Or.inr (Or.inr hl)))
  · exact Or.inr (Or.inr (Or.inr (Or.inl h)))

/-- C16: `TestConnect` always returns, after at most 60 samples and at most 59
delays of 4 µs.  It returns 1 exactly when one of the next 60 samples is high,
stopping at the first high one, and 0 exactly when all 60 are low.  When it
returns 0, `isConnected` returns 0 in the same state: the calls made are those
of the idle check alone, none of which drives the line, and the 60 samples
taken are all idle samples. -/
theorem C16_bounded_idle_check (s : State) :
    ∃ r s', TestConnect s = some (r, s') ∧
      s'.pos ≤ s.pos + 60 ∧
      (s'.trace.drop s.trace.length).count (Ev.delayMicroseconds 4) ≤ 59 ∧
      (r = 1 ∨ r = 0) ∧
      (r = 1 ↔ ∃ j, j < 60 ∧ s.line (s.pos + j) = true) ∧
      (r = 0 ↔ ∀ j, j < 60 → s.line (s.pos + j) = false) ∧
      (r = 1 → ∃ k, k < 60 ∧ firstHighAt s.line s.pos k ∧ s'.pos = s.pos + (k + 1)) ∧
      (r = 0 →
        isConnected s = some (0, s') ∧
        s' = advance s 60 (TestConnectFailOps s.pin) ∧
        (∀ e, e ∈ TestConnectFailOps s.pin →
          (∀ pin level, e ≠ Ev.digitalWrite pin level) ∧ e ≠ Ev.pinMode s.pin PinMode.OUTPUT ∧
          (∀ us, e = Ev.delayMicroseconds us → us = 4))) := by
  rcases TestConnect_total s with ⟨k, hk, hf, e⟩ | ⟨hl, e⟩
  · refine ⟨1, _, e, ?_, ?_, Or.inl rfl, ?_, ?_, ?_, ?_⟩
    · simp only [advance_pos]; omega
    · rw [advance_trace, List.drop_left, count_delay4_TestConnectOps]; omega
    · exact ⟨fun _ => ⟨k, hk, hf.2⟩, fun _ => rfl⟩
    · refine ⟨fun h => absurd h (by decide), fun h => ?_⟩
      have := h k hk
      rw [hf.2] at this
      exact absurd this (by decide)
    · exact fun _ => ⟨k, hk, hf, rfl⟩
    · exact fun h => absurd h (by decide)
  · refine ⟨0, _, e, ?_, ?_, Or.inr rfl, ?_, ?_, ?_, ?_⟩
    · simp only [advance_pos]; omega
    · rw [advance_trace, List.drop_left, count_delay4_TestConnectFailOps]
    · refine ⟨fun h => absurd h (by decide), ?_⟩
      rintro ⟨j, hj, hh⟩
      rw [hl j hj] at hh
      exact absurd hh (by decide)
    · exact ⟨fun _ => hl, fun _ => rfl⟩
    · exact fun h => absurd h (by decide)
    · intro _
      refine ⟨isConnected_idle_fail s hl, rfl, fun ev hev => ?_⟩
      rcases TestConnectFailOps_mem s.pin ev hev with h | h | h | h | h <;>
        (subst h; simp)

/-- C16 on a line held low: the idle check still returns, within 60 samples. -/
theorem C16_bounded_idle_check_witness :
    ∃ r s', TestConnect (initState (lineOf (List.replicate 60 false))) = some (r, s') ∧
      s'.pos ≤ (initState (lineOf (List.replicate 60 false))).pos + 60 := by
  obtain ⟨r, s', h1, h2, _⟩ := C16_bounded_idle_check (initState (lineOf (List.replicate 60 false)))
  exact ⟨r, s', h1, h2⟩

/-- C17: after the Convert-T command the read-slots are repeated until the first
one that samples high.  When that is the `(k+1)`-th sample, the wait returns
after exactly `k + 1` read-slots given more than `k` units of fuel, and does not
return within `k` or fewer; `isFoundDataWarehouse` then goes on with its second
handshake from the state the wait ended in.  The wait returns whenever some
read-slot samples high, and for every `n` there is a line on which it issues
more than `n` read-slots. -/
theorem C17_busy_wait (s : State) :
    (∀ k, firstHighAt s.line s.pos k →
      (∀ fuel, k < fuel →
        busyWait fuel s
          = some (advance s (k + 1)
              ((List.replicate k (ReadSlotOps s.pin LOW)).flatten ++ ReadSlotOps s.pin HIGH))) ∧
      (∀ fuel, fuel ≤ k → busyWait fuel s = none)) ∧
    ((∃ j, s.line (s.pos + j) = true) → ∃ fuel s', busyWait fuel s = some s') ∧
    (∀ fuel k2 kw, presentAt s.line s.pos k2 →
      kw < fuel → firstHighAt s.line (s.pos + (k2 + 2)) kw →
      ∃ c s3,
        isConnected (advance s ((k2 + 2) + (kw + 1))
          (HandshakeOps s.pin k2 LOW ++ SendCommandOps s.pin Skip_ROM ++
            SendCommandOps s.pin Convert_T ++ BusyWaitOps s.pin kw)) = some (c, s3) ∧
        isFoundDataWarehouse fuel s
          = (if c = 0 then some (0, s3)
             else some
              (CheckSratchpadCRC
                (ShelveData (SendCommand Read_Scratchpad (SendCommand Skip_ROM s3))),
               ShelveData (SendCommand Read_Scratchpad (SendCommand Skip_ROM s3))))) ∧
    (∀ n, ∃ line k, n < k ∧
      busyWait (k + 1) (initState line)
        = some (advance (initState line) (k + 1) (BusyWaitOps 2 k)) ∧
      ∀ fuel, fuel ≤ n → busyWait fuel (initState line) = none) := by
  refine ⟨?_, ?_, ?_, ?_⟩
  · intro k hf
    refine ⟨fun fuel hk => busyWait_eq k fuel s hk hf, fun fuel hk => ?_⟩
    exact busyWait_allLow fuel s (fun j hj => hf.1 j (by omega))
  · rintro ⟨j, hj⟩
    rcases firstHighAt_or_allLow s.line s.pos (j + 1) with ⟨k, hk, hf⟩ | hl
    · exact ⟨k + 1, _, busyWait_eq k (k + 1) s (Nat.lt_succ_self k) hf⟩
    · rw [hl j (Nat.lt_succ_self j)] at hj
      exact absurd hj (by decide)
  · intro fuel k2 kw h2 hfuel hw
    have e1 := isConnected_present s k2 h2
    have e2 := busyWait_eq kw fuel
      (advance s (k2 + 2) (HandshakeOps s.pin k2 LOW ++ SendCommandOps s.pin Skip_ROM ++
        SendCommandOps s.pin Convert_T)) hfuel (by simpa using hw)
    simp only [advance_advance, advance_pin, List.append_assoc, Nat.add_zero] at e2
    obtain ⟨c, n, ops, e3⟩ := isConnected_total (advance s ((k2 + 2) + (kw + 1))
      (HandshakeOps s.pin k2 LOW ++ SendCommandOps s.pin Skip_ROM ++
        SendCommandOps s.pin Convert_T ++ BusyWaitOps s.pin kw))
    refine ⟨c, _, e3, ?_⟩
    simp only [List.append_assoc] at e3
    simp only [isFoundDataWarehouse, e1, SendCommand_eq, advance_advance, advance_pin,
      List.append_assoc, Nat.add_zero, e2, e3]
    by_cases hc : c = 0 <;> simp [hc]
  · intro n
    refine ⟨fun j => decide (n + 1 ≤ j), n + 1, Nat.lt_succ_self n, ?_, ?_⟩
    · exact busyWait_eq (n + 1) (n + 1 + 1) _ (Nat.lt_succ_self _)
        ⟨fun j hj => by simp [initState]; omega, by simp [initState]⟩
    · intro fuel hfuel
      exact busyWait_allLow fuel _ (fun j hj => by simp [initState]; omega)

/-- C17 on a conversion that is busy for one read-slot: two read-slots are
issued, and one unit of fuel is not enough. -/
theorem C17_busy_wait_witness :
    busyWait 2 (initState (lineOf [false, true]))
      = some (advance (initState (lineOf [false, true])) 2
          ((List.replicate 1 (ReadSlotOps 2 LOW)).flatten ++ ReadSlotOps 2 HIGH)) ∧
    busyWait 1 (initState (lineOf [false, true])) = none :=
  ⟨((C17_busy_wait (initState (lineOf [false, true]))).1 1 (by
      unfold firstHighAt
      decide)).1 2 (by decide),
   ((C17_busy_wait (initState (lineOf [false, true]))).1 1 (by
      unfold firstHighAt
      decide)).2 1 (by decide)⟩

/-! ## CRC: linearity and error detection -/

theorem crc8MaximBit_linear (x y : Nat) :
    crc8MaximBit (x ^^^ y) = crc8MaximBit x ^^^ crc8MaximBit y := by
  unfold crc8MaximBit
  simp only [Nat.and_one_is_mod, shiftRight_one_xor, Nat.xor_mod_two_eq]
  rcases Nat.mod_two_eq_zero_or_one x with hx | hx <;>
  rcases Nat.mod_two_eq_zero_or_one y with hy | hy <;>
  · have h : (x + y) % 2 = (x % 2 + y % 2) % 2 := Nat.add_mod x y 2
    rw [h, hx, hy]
    simp only [Nat.reduceAdd, Nat.reduceMod, Nat.zero_mod, Nat.one_mod, zero_ne_one,
      OfNat.zero_ne_ofNat, if_true, if_false, reduceIte]
    all_goals
      apply Nat.eq_of_testBit_eq
      intro i
      simp only [Nat.testBit_xor]
      generalize Nat.testBit (x >>> 1) i = a
      generalize Nat.testBit (y >>> 1) i = b
      generalize Nat.testBit 140 i = c
      cases a <;> cases b <;> cases c <;> rfl

theorem crc8MaximBits_linear (l : List Nat) :
    ∀ x y, l.foldl (fun c _ => crc8MaximBit c) (x ^^^ y)
      = l.foldl (fun c _ => crc8MaximBit c) x ^^^ l.foldl (fun c _ => crc8MaximBit c) y := by
  induction l with
  | nil => intro x y; rfl
  | cons a l ih =>
    intro x y
    simp only [List.foldl_cons]
    rw [crc8MaximBit_linear, ih]

theorem ReCalculateCRC_linear (c c' b b' : Nat) (hb : b < 256) (hb' : b' < 256) :
    ReCalculateCRC (c ^^^ c') (b ^^^ b') = ReCalculateCRC c b ^^^ ReCalculateCRC c' b' := by
  have hx : b ^^^ b' < 256 := Nat.xor_lt_two_pow (n := 8) hb hb'
  rw [ReCalculateCRC_eq_ref _ _ hx, ReCalculateCRC_eq_ref _ _ hb, ReCalculateCRC_eq_ref _ _ hb']
  unfold crc8MaximByte
  rw [← crc8MaximBits_linear]
  congr 1
  simp only [Nat.xor_assoc]
  congr 1
  rw [← Nat.xor_assoc, Nat.xor_comm c' b, Nat.xor_assoc]

theorem crcFold_linear (a : List Nat) :
    ∀ (b : List Nat) (c c' : Nat), a.length = b.length →
      (∀ x ∈ a, x < 256) → (∀ x ∈ b, x < 256) →
      (List.zipWith (fun x y => x ^^^ y) a b).foldl ReCalculateCRC (c ^^^ c')
        = a.foldl ReCalculateCRC c ^^^ b.foldl ReCalculateCRC c' := by
  induction a with
  | nil =>
    intro b c c' hlen _ _
    cases b with
    | nil => rfl
    | cons y b => simp at hlen
  | cons x a ih =>
    intro b c c' hlen ha hb
    cases b with
    | nil => simp at hlen
    | cons y b =>
      simp only [List.zipWith_cons_cons, List.foldl_cons]
      rw [ReCalculateCRC_linear c c' x y (ha x (List.mem_cons_self _ _))
        (hb y (List.mem_cons_self _ _))]
      exact ih b _ _ (by simpa using hlen) (fun z hz => ha z (List.mem_cons_of_mem _ hz))
        (fun z hz => hb z (List.mem_cons_of_mem _ hz))

theorem allBytes_lt (s : State) (hs : ∀ i, s.scratchpad i < 256) : ∀ b ∈ allBytes s, b < 256 := by
  intro b hb
  simp only [allBytes, dataBytes, List.mem_append, List.mem_cons, List.mem_singleton,
    List.not_mem_nil, or_false] at hb
  rcases hb with (h | h | h | h | h | h | h | h) | h <;> (rw [h]; exact hs _)

theorem errBytes_lt (p : Nat) : ∀ b ∈ errBytes p, b < 256 := by
  intro b hb
  simp only [errBytes, List.mem_map] at hb
  obtain ⟨i, _, rfl⟩ := hb
  split
  · exact Nat.pow_lt_pow_right (by decide) (Nat.mod_lt p (by decide))
  · decide

theorem allBytes_flipBit (s : State) (p : Nat) :
    allBytes (flipBit s p) = List.zipWith (fun x y => x ^^^ y) (allBytes s) (errBytes p) := by
  rfl

theorem flipBit_lt (s : State) (p : Nat) (hs : ∀ i, s.scratchpad i < 256) :
    ∀ i, (flipBit s p).scratchpad i < 256 := by
  intro i
  have he : (if p / 8 = i.val then 2 ^ (p % 8) else 0) < 256 := by
    split
    · exact Nat.pow_lt_pow_right (by decide) (Nat.mod_lt p (by decide))
    · decide
  exact Nat.xor_lt_two_pow (n := 8) (hs i) he

theorem accepted_iff_zero (s : State) (hs : ∀ i, s.scratchpad i < 256) :
    CheckSratchpadCRC s = 1 ↔ (allBytes s).foldl ReCalculateCRC 0x00 = 0x00 := by
  have hdata : ∀ b ∈ dataBytes s, b < 256 := fun b hb =>
    allBytes_lt s hs b (by rw [allBytes]; exact List.mem_append_left _ hb)
  have hlt := (crcFold_refines (dataBytes s) 0 (by decide) hdata).1
  rw [CheckSratchpadCRC_eq, allBytes, List.foldl_append]
  simp only [List.foldl_cons, List.foldl_nil]
  rw [ReCalculateCRC_eq_zero _ _ hlt (hs 8)]
  split
  · rename_i h; simp [h]
  · rename_i h; simp [h]

theorem rejected_of_nonzero (s : State) (hs : ∀ i, s.scratchpad i < 256)
    (h : (allBytes s).foldl ReCalculateCRC 0x00 ≠ 0x00) : CheckSratchpadCRC s = 0 := by
  have h1 : CheckSratchpadCRC s ≠ 1 := fun e => h ((accepted_iff_zero s hs).mp e)
  rw [CheckSratchpadCRC_eq] at h1 ⊢
  split
  · rename_i e; rw [if_pos e] at h1; exact absurd rfl h1
  · rfl

theorem syndrome_eq : ∀ p, p < 72 →
    (errBytes p).foldl ReCalculateCRC 0x00 = syndromeTable.getD p 0 := by
  decide!

theorem syndrome_ne_zero : ∀ p, p < 72 → syndromeTable.getD p 0 ≠ 0 := by
  decide!

theorem syndrome_injective : ∀ p, p < 72 → ∀ q, q < 72 →
    syndromeTable.getD p 0 = syndromeTable.getD q 0 → p = q := by
  decide!

theorem errBytes_length (p : Nat) : (errBytes p).length = 9 := by
  simp [errBytes]

theorem allBytes_length (s : State) : (allBytes s).length = 9 := by
  simp [allBytes, dataBytes]

theorem crc_flipBit (s : State) (p : Nat) (hs : ∀ i, s.scratchpad i < 256) :
    (allBytes (flipBit s p)).foldl ReCalculateCRC 0x00
      = (allBytes s).foldl ReCalculateCRC 0x00 ^^^ (errBytes p).foldl ReCalculateCRC 0x00 := by
  rw [allBytes_flipBit]
  have h := crcFold_linear (allBytes s) (errBytes p) 0 0
    (by rw [allBytes_length, errBytes_length]) (allBytes_lt s hs) (errBytes_lt p)
  simpa using h

/-- C20: a scratchpad accepted by `CheckSratchpadCRC` is rejected after any one of
its 72 bits is inverted, and after any two distinct bits are inverted.  The CRC
register is linear over GF(2): for byte lists of equal length, the CRC of the
bytewise XOR is the XOR of the CRCs (initial register 0). -/
theorem C20_detects_one_and_two_bit_errors (s : State) (hs : ∀ i, s.scratchpad i < 256)
    (hacc : CheckSratchpadCRC s = 1) :
    (∀ p, p < 72 → CheckSratchpadCRC (flipBit s p) = 0) ∧
    (∀ p q, p < 72 → q < 72 → p ≠ q → CheckSratchpadCRC (flipBit (flipBit s p) q) = 0) ∧
    (∀ a b : List Nat, a.length = b.length → (∀ x ∈ a, x < 256) → (∀ x ∈ b, x < 256) →
      (List.zipWith (fun x y => x ^^^ y) a b).foldl ReCalculateCRC 0x00
        = a.foldl ReCalculateCRC 0x00 ^^^ b.foldl ReCalculateCRC 0x00) := by
  have hz := (accepted_iff_zero s hs).mp hacc
  refine ⟨?_, ?_, ?_⟩
  · intro p hp
    apply rejected_of_nonzero _ (flipBit_lt s p hs)
    rw [crc_flipBit s p hs, hz, syndrome_eq p hp, Nat.zero_xor]
    exact syndrome_ne_zero p hp
  · intro p q hp hq hpq
    apply rejected_of_nonzero _ (flipBit_lt _ q (flipBit_lt s p hs))
    rw [crc_flipBit _ q (flipBit_lt s p hs), crc_flipBit s p hs, hz, syndrome_eq p hp,
      syndrome_eq q hq, Nat.zero_xor]
    intro h
    exact hpq (syndrome_injective p hp q hq (Nat.xor_eq_zero.mp h))
  · intro a b hlen ha hb
    have h := crcFold_linear a b 0 0 hlen ha hb
    simpa using h

/-- C20 on the 25.0 °C scratchpad: inverting its lowest temperature bit, or that
bit and the highest CRC bit, makes the validator reject it. -/
theorem C20_detects_one_and_two_bit_errors_witness :
    CheckSratchpadCRC (padState demoScratchpad) = 1 ∧
    CheckSratchpadCRC (flipBit (padState demoScratchpad) 0) = 0 ∧
    CheckSratchpadCRC (flipBit (flipBit (padState demoScratchpad) 0) 71) = 0 :=
  ⟨by decide!,
   (C20_detects_one_and_two_bit_errors (padState demoScratchpad) (by decide) (by decide!)).1
     0 (by decide),
   (C20_detects_one_and_two_bit_errors (padState demoScratchpad) (by decide) (by decide!)).2.1
     0 71 (by decide) (by decide) (by decide)⟩

end SimpleDs18b20

